import Mathlib

/-!
ProbeEP: the endpoint reconciliation loop of `main.go`

A shallow embedding of the reconciliation engine of `main.go`:

* the address pools of an endpoint subset, `GetAddresses`, `DisableAddress`,
  `EnableAddress`;
* the TCP prober `checkIP`;
* the result-processing loop and the retried cycle body of `checkEndpoints`;
* `getEndpoints` and `RetryOnConflict`.

Go slices are lists, the `map[string]bool` of `GetAddresses` is an association
list with distinct keys, a channel is the list of the values received from it,
and the calls to the API server and to the network are answered by an
explicit environment (`Cluster`) while their effects are recorded in an
explicit state (`World`).  A Go panic is the outcome `Res.panicked`.
-/

namespace ProbeEP

/-! ## Data model -/

/-- The record `v1.EndpointAddress`: the IP is the identity key, the other
fields are metadata that `main.go` never reads. -/
structure EndpointAddress where
  IP : String
  Hostname : String
  NodeName : Option String
deriving DecidableEq, Repr

/-- The record `v1.EndpointSubset`: the ready pool, the not-ready pool and the
ports (never read by `main.go`). -/
structure EndpointSubset where
  Addresses : List EndpointAddress
  NotReadyAddresses : List EndpointAddress
  Ports : List Nat
deriving DecidableEq, Repr

/-- The resource `v1.Endpoints`: metadata and the list of subsets. -/
structure Endpoints where
  Name : String
  ResourceVersion : String
  Subsets : List EndpointSubset
deriving DecidableEq, Repr

/-- The struct `ValidIP` of `main.go`: one probe result. -/
structure ValidIP where
  available : Bool
  ip : String
deriving DecidableEq, Repr

/-- A Go `map[string]bool`, as an association list whose keys are distinct. -/
abbrev AddrMap := List (String × Bool)

/-- The assignment `m[k] = v`: overwrite the entry of `k`, or add one. -/
def AddrMap.assign : AddrMap → String → Bool → AddrMap
  | [], k, v => [(k, v)]
  | (k', v') :: t, k, v => if k' = k then (k, v) :: t else (k', v') :: AddrMap.assign t k v

/-- The read `m[k]`: the stored value, and the zero value `false` for a key
that is absent. -/
def AddrMap.get : AddrMap → String → Bool
  | [], _ => false
  | (k', v) :: t, k => if k' = k then v else AddrMap.get t k

/-- The keys of the map, the values `range m` iterates over. -/
def AddrMap.keys (m : AddrMap) : List String := m.map Prod.fst

/-- The builtin `len(m)`. -/
def AddrMap.len (m : AddrMap) : Nat := m.length

/-! ## `GetAddresses`, `DisableAddress`, `EnableAddress` (main.go 192-235) -/

/-- `GetAddresses`: every ready IP is mapped to `true`, then every not-ready
IP is mapped to `false`. -/
def GetAddresses (ep : EndpointSubset) : AddrMap :=
  let addresses : AddrMap := []
  let addresses := ep.Addresses.foldl (fun m addr => AddrMap.assign m addr.IP true) addresses
  let addresses := ep.NotReadyAddresses.foldl (fun m addr => AddrMap.assign m addr.IP false) addresses
  addresses

/-- One iteration of the loop of `DisableAddress`; the state is
`(NewAddresses, ep.NotReadyAddresses)`. -/
def DisableAddress.step (address : String)
    (acc : List EndpointAddress × List EndpointAddress) (addr : EndpointAddress) :
    List EndpointAddress × List EndpointAddress :=
  if addr.IP ≠ address then (acc.1 ++ [addr], acc.2) else (acc.1, acc.2 ++ [addr])

/-- `DisableAddress`: walk the ready pool, keep the records of another IP in
`NewAddresses`, append the records of `address` to the not-ready pool, then
store `NewAddresses` as the ready pool. -/
def DisableAddress (ep : EndpointSubset) (address : String) : EndpointSubset :=
  let acc := ep.Addresses.foldl (DisableAddress.step address) ([], ep.NotReadyAddresses)
  { ep with Addresses := acc.1, NotReadyAddresses := acc.2 }

/-- One iteration of the loop of `EnableAddress`; the state is
`(NewNotReadyAddresses, ep.Addresses)`. -/
def EnableAddress.step (address : String)
    (acc : List EndpointAddress × List EndpointAddress) (addr : EndpointAddress) :
    List EndpointAddress × List EndpointAddress :=
  if addr.IP ≠ address then (acc.1 ++ [addr], acc.2) else (acc.1, acc.2 ++ [addr])

/-- `EnableAddress`: walk the not-ready pool, keep the records of another IP
in `NewNotReadyAddresses`, append the records of `address` to the ready pool,
then store `NewNotReadyAddresses` as the not-ready pool. -/
def EnableAddress (ep : EndpointSubset) (address : String) : EndpointSubset :=
  let acc := ep.NotReadyAddresses.foldl (EnableAddress.step address) ([], ep.Addresses)
  { ep with Addresses := acc.2, NotReadyAddresses := acc.1 }

/-- The IPs of both pools, ready pool first. -/
def EndpointSubset.allIPs (ep : EndpointSubset) : List String :=
  (ep.Addresses ++ ep.NotReadyAddresses).map EndpointAddress.IP

/-- The address-pool invariant: no IP occurs twice, within or across pools. -/
def EndpointSubset.NoDupIPs (ep : EndpointSubset) : Prop := ep.allIPs.Nodup

instance (ep : EndpointSubset) : Decidable ep.NoDupIPs := by
  unfold EndpointSubset.NoDupIPs; infer_instance

/-! ## The TCP prober `checkIP` (main.go 161-177) -/

/-- The error of `conn.Read`, as far as `checkIP` tells errors apart: it
compares the error with `io.EOF` only. -/
inductive ReadErr
  | EOF
  | timeout
  | other (msg : String)
deriving DecidableEq, Repr

/-- What the network does to one probe: the error of `net.DialTimeout`
(`none` is `nil`) and, on a connection, the error of the immediate
`conn.Read` (`none` is `nil`). -/
structure ConnOutcome where
  dialErr : Option String
  readErr : Option ReadErr
deriving DecidableEq, Repr

/-- `checkIP`: dial `ip:port`, read once, and send one `ValidIP` on the
channel.  The value is the list of the messages sent on `ch`. -/
def checkIP (net : String → ConnOutcome) (port : String) (ip : String) : List ValidIP :=
  let conn := net (ip ++ ":" ++ port)
  match conn.dialErr with
  | none =>
    if conn.readErr = some ReadErr.EOF then
      [{ available := false, ip := ip }]
    else
      [{ available := true, ip := ip }]
  | some _ => [{ available := false, ip := ip }]

/-! ## The result-processing loop of `checkEndpoints` (main.go 132-143) -/

/-- The variables the loop updates: the subset behind the pointer `eps` and
the flag `changedState`. -/
structure LoopState where
  eps : EndpointSubset
  changedState : Bool
deriving DecidableEq, Repr

/-- The body of the loop for one received value `checkedAddr`. -/
def processResult (addresses : AddrMap) (st : LoopState) (checkedAddr : ValidIP) : LoopState :=
  if addresses.get checkedAddr.ip && !checkedAddr.available then
    { eps := DisableAddress st.eps checkedAddr.ip, changedState := true }
  else if !addresses.get checkedAddr.ip && checkedAddr.available then
    { eps := EnableAddress st.eps checkedAddr.ip, changedState := true }
  else
    st

/-- The loop `for i := 0; i < len(addresses); i++ { checkedAddr := <-ch; ... }`,
run for `n` more iterations on the values `ch` still to be received.  A
receive with nothing left to arrive blocks for ever: `none`.  The result is
the final state and the values never received. -/
def resultLoop (addresses : AddrMap) : Nat → List ValidIP → LoopState →
    Option (LoopState × List ValidIP)
  | 0, ch, st => some (st, ch)
  | _ + 1, [], _ => none
  | n + 1, checkedAddr :: ch, st => resultLoop addresses n ch (processResult addresses st checkedAddr)

/-- A probe result disagrees with the classification: ready but unreachable,
or not ready but reachable (the two guards of the loop body). -/
def disagrees (addresses : AddrMap) (r : ValidIP) : Bool :=
  (addresses.get r.ip && !r.available) || (!addresses.get r.ip && r.available)

/-! ## Errors, outcomes, the environment and the recorded effects -/

/-- A Go `error` value, as far as `main.go` tells errors apart: the sentinel
`wait.ErrWaitTimeout`, and any other error with its message and whether
`errors.IsConflict` holds of it. -/
inductive GoError
  | ErrWaitTimeout
  | status (conflict : Bool) (msg : String)
deriving DecidableEq, Repr

/-- The predicate `errors.IsConflict`. -/
def IsConflict : GoError → Bool
  | GoError.status c _ => c
  | GoError.ErrWaitTimeout => false

/-- The method `err.Error()`. -/
def GoError.Error : GoError → String
  | GoError.ErrWaitTimeout => "timed out waiting for the condition"
  | GoError.status _ msg => msg

/-- How a call ends: it returns a value, it panics, or it blocks for ever. -/
inductive Res (α : Type)
  | ret (a : α)
  | panicked (msg : String)
  | blocked
deriving DecidableEq, Repr

/-- An effect of the cycle that the outside sees. -/
inductive Event
  | get
  | probe (ip : String)
  | update (ep : Endpoints)
deriving DecidableEq, Repr

/-- The environment of the loop: the answers of the API server to the
successive `Get` and `Update` calls, the network seen by each probing round,
the order in which the values sent in a round are received, and the
configured port. -/
structure Cluster where
  getResp : Nat → Except GoError Endpoints
  updateResp : Nat → Endpoints → Option GoError
  net : Nat → String → ConnOutcome
  sched : Nat → List ValidIP → List ValidIP
  port : String

/-- The recorded effects: how many `Get` calls, probing rounds and `Update`
calls were made, and the events in order. -/
structure World where
  gets : Nat
  rounds : Nat
  updates : Nat
  log : List Event
deriving DecidableEq, Repr

/-- The scheduler delivers every value sent in a round exactly once, in some
order. -/
def Cluster.Fair (c : Cluster) : Prop := ∀ n l, (c.sched n l).Perm l

/-! ## `getEndpoints` and the cycle body (main.go 122-152, 179-190) -/

/-- `getEndpoints`: one `Get`; panic on an error and on more than one
subset. -/
def getEndpoints (c : Cluster) (w : World) : Res Endpoints × World :=
  let w1 := { w with gets := w.gets + 1, log := w.log ++ [Event.get] }
  match c.getResp w.gets with
  | Except.error err => (Res.panicked err.Error, w1)
  | Except.ok eps =>
    if eps.Subsets.length > 1 then
      (Res.panicked "Error: more than one endpoint subset", w1)
    else
      (Res.ret eps, w1)

/-- Lines 123-124: `ep := getEndpoints(c)` and `eps := &ep.Subsets[0]`, which
panics on an empty `Subsets`.  The value is the resource, its first subset and
the other subsets. -/
def fetchSubset (c : Cluster) (w : World) :
    Res (Endpoints × EndpointSubset × List EndpointSubset) × World :=
  match getEndpoints c w with
  | (Res.ret ep, w1) =>
    match ep.Subsets with
    | [] => (Res.panicked "runtime error: index out of range", w1)
    | eps :: rest => (Res.ret (ep, eps, rest), w1)
  | (Res.panicked msg, w1) => (Res.panicked msg, w1)
  | (Res.blocked, w1) => (Res.blocked, w1)

/-- Lines 126-130: the values that arrive on `ch` in probing round `round`:
one `checkIP` per key of the map, received in the order of the scheduler. -/
def probeBatch (c : Cluster) (round : Nat) (eps : EndpointSubset) : List ValidIP :=
  c.sched round ((GetAddresses eps).keys.flatMap (checkIP (c.net round) c.port))

/-- The resource handed to `Update`: `ep` with its first subset as the loop
left it (the loop writes through the pointer `eps`). -/
def payload (ep : Endpoints) (st : LoopState) (rest : List EndpointSubset) : Endpoints :=
  { ep with Subsets := st.eps :: rest }

/-- Lines 126-151: classify, launch the probes, run the loop, and call
`Update` when `changedState` is set. -/
def probeAndCommit (c : Cluster) (ep : Endpoints) (eps : EndpointSubset)
    (rest : List EndpointSubset) (w : World) : Res (Option GoError) × World :=
  let addresses := GetAddresses eps
  let w2 := { w with rounds := w.rounds + 1, log := w.log ++ addresses.keys.map Event.probe }
  match resultLoop addresses addresses.len (probeBatch c w.rounds eps)
      { eps := eps, changedState := false } with
  | none => (Res.blocked, w2)
  | some (st, _) =>
    if st.changedState then
      (Res.ret (c.updateResp w2.updates (payload ep st rest)),
        { w2 with updates := w2.updates + 1,
                  log := w2.log ++ [Event.update (payload ep st rest)] })
    else
      (Res.ret none, w2)

/-- The closure passed to `RetryOnConflict` by `checkEndpoints`
(lines 122-152). -/
def cycleBody (c : Cluster) (w : World) : Res (Option GoError) × World :=
  match fetchSubset c w with
  | (Res.ret (ep, eps, rest), w1) => probeAndCommit c ep eps rest w1
  | (Res.panicked msg, w1) => (Res.panicked msg, w1)
  | (Res.blocked, w1) => (Res.blocked, w1)

/-! ## `RetryOnConflict` (main.go 238-256) -/

/-- The struct `wait.Backoff`.  `Duration` is in nanoseconds; `Factor` and
`Jitter` only shape the sleeps between attempts. -/
structure Backoff where
  Steps : Int
  Duration : Nat
  Factor : ℚ
  Jitter : ℚ

/-- The value `DefaultRetry` of `checkEndpoints` (lines 114-119). -/
def DefaultRetry : Backoff :=
  { Steps := 5, Duration := 10 * 1000000, Factor := 1, Jitter := 1 / 10 }

/-- Modelled from the spec: `wait.ExponentialBackoff` of the Kubernetes
library `k8s.io/apimachinery/pkg/util/wait`, which is not under `src/`.  It
runs the condition at most `Steps` times ("up to 5 attempts"), sleeping
between attempts; it returns the error of the condition as soon as that error
is not nil or the condition reports done, and `wait.ErrWaitTimeout` when the
attempts run out.  The sleeps are not modelled.  `n` is the number of
attempts left. -/
def ExponentialBackoff {σ : Type} (condition : σ → Res (Bool × Option GoError) × σ) :
    Nat → σ → Res (Option GoError) × σ
  | 0, s => (Res.ret (some GoError.ErrWaitTimeout), s)
  | n + 1, s =>
    match condition s with
    | (Res.ret (ok, err), s1) =>
      if err.isSome || ok then (Res.ret err, s1) else ExponentialBackoff condition n s1
    | (Res.panicked msg, s1) => (Res.panicked msg, s1)
    | (Res.blocked, s1) => (Res.blocked, s1)

/-- The condition closure of `RetryOnConflict` (lines 240-251); the second
component of the state is the captured variable `lastConflictErr`. -/
def RetryOnConflict.condition {σ : Type} (fn : σ → Res (Option GoError) × σ)
    (s : σ × Option GoError) : Res (Bool × Option GoError) × (σ × Option GoError) :=
  match fn s.1 with
  | (Res.ret none, s1) => (Res.ret (true, none), (s1, s.2))
  | (Res.ret (some err), s1) =>
    if IsConflict err then (Res.ret (false, none), (s1, some err))
    else (Res.ret (false, some err), (s1, s.2))
  | (Res.panicked msg, s1) => (Res.panicked msg, (s1, s.2))
  | (Res.blocked, s1) => (Res.blocked, (s1, s.2))

/-- `RetryOnConflict`: run `fn` under `wait.ExponentialBackoff`, and replace
the result `wait.ErrWaitTimeout` by `lastConflictErr`. -/
def RetryOnConflict {σ : Type} (backoff : Backoff) (fn : σ → Res (Option GoError) × σ)
    (s : σ) : Res (Option GoError) × σ :=
  match ExponentialBackoff (RetryOnConflict.condition fn) backoff.Steps.toNat (s, none) with
  | (Res.ret err, (s1, lastConflictErr)) =>
    (Res.ret (if err = some GoError.ErrWaitTimeout then lastConflictErr else err), s1)
  | (Res.panicked msg, (s1, _)) => (Res.panicked msg, s1)
  | (Res.blocked, (s1, _)) => (Res.blocked, s1)

/-- One iteration of the loop `for *running` of `checkEndpoints`
(lines 122-157): the retried cycle body, and a panic on a non-nil
`retryErr`.  The sleep is not modelled. -/
def checkEndpoints.iteration (c : Cluster) (w : World) : Res Unit × World :=
  match RetryOnConflict DefaultRetry (cycleBody c) w with
  | (Res.ret none, w1) => (Res.ret (), w1)
  | (Res.ret (some retryErr), w1) => (Res.panicked retryErr.Error, w1)
  | (Res.panicked msg, w1) => (Res.panicked msg, w1)
  | (Res.blocked, w1) => (Res.blocked, w1)

/-- `checkEndpoints`: the loop `for *running`; `running` lists the values of
the flag read at the head of the successive iterations (a list that runs out
reads as `false`). -/
def checkEndpoints (c : Cluster) : List Bool → World → Res Unit × World
  | [], w => (Res.ret (), w)
  | false :: _, w => (Res.ret (), w)
  | true :: running, w =>
    match checkEndpoints.iteration c w with
    | (Res.ret _, w1) => checkEndpoints c running w1
    | (Res.panicked msg, w1) => (Res.panicked msg, w1)
    | (Res.blocked, w1) => (Res.blocked, w1)

/-! ## Instrumentation used to state the retry contract -/

/-- The function `fn` with a counter of its invocations added to the state. -/
def counting {σ : Type} (fn : σ → Res (Option GoError) × σ) (s : σ × Nat) :
    Res (Option GoError) × (σ × Nat) :=
  ((fn s.1).1, ((fn s.1).2, s.2 + 1))

/-- The state in which the attempt number `k` (from 0) of `fn` starts, when
the attempts before it returned. -/
def attemptState {σ : Type} (fn : σ → Res (Option GoError) × σ) (s : σ) : Nat → σ
  | 0 => s
  | k + 1 => (fn (attemptState fn s k)).2

/-- The outcome of the attempt number `k` (from 0) of `fn`. -/
def attemptResult {σ : Type} (fn : σ → Res (Option GoError) × σ) (s : σ) (k : Nat) :
    Res (Option GoError) :=
  (fn (attemptState fn s k)).1

/-- The attempt number `k` returned a conflict error. -/
def attemptConflict {σ : Type} (fn : σ → Res (Option GoError) × σ) (s : σ) (k : Nat) : Prop :=
  ∃ e, attemptResult fn s k = Res.ret (some e) ∧ IsConflict e = true

/-- The world before any call. -/
def World.init : World := { gets := 0, rounds := 0, updates := 0, log := [] }

/-! ## A concrete cluster -/

/-- The resource returned by the first `Get` of the sample cluster: one
subset, `10.0.0.1` ready. -/
def sampleFirst : Endpoints :=
  { Name := "svc", ResourceVersion := "1",
    Subsets := [{ Addresses := [⟨"10.0.0.1", "a", none⟩], NotReadyAddresses := [],
                  Ports := [80] }] }

/-- The resource returned by the later `Get` calls of the sample cluster:
another writer has added `10.0.0.2` to the ready pool. -/
def sampleSecond : Endpoints :=
  { Name := "svc", ResourceVersion := "2",
    Subsets := [{ Addresses := [⟨"10.0.0.1", "a", none⟩, ⟨"10.0.0.2", "b", none⟩],
                  NotReadyAddresses := [], Ports := [80] }] }

/-- A cluster in which `10.0.0.1` does not answer, every other address does,
the first `Update` is refused with a conflict and the later ones succeed; the
results of a round are received in the reverse of the launch order. -/
def sampleCluster : Cluster :=
  { getResp := fun n => if n = 0 then Except.ok sampleFirst else Except.ok sampleSecond
    updateResp := fun n _ => if n = 0 then some (GoError.status true "conflict") else none
    net := fun _ addr =>
      if addr = "10.0.0.1:80" then { dialErr := some "i/o timeout", readErr := none }
      else { dialErr := none, readErr := some ReadErr.timeout }
    sched := fun _ l => l.reverse
    port := "80" }

/-- A cluster whose `Get` fails. -/
def brokenCluster : Cluster :=
  { sampleCluster with getResp := fun _ => Except.error (GoError.status false "forbidden") }

/-- A function `fn` that fails at once with `wait.ErrWaitTimeout`. -/
def timeoutFn (s : Nat) : Res (Option GoError) × Nat :=
  (Res.ret (some GoError.ErrWaitTimeout), s + 1)

/-- A function `fn` that fails at once with a non-conflict API error. -/
def forbiddenFn (s : Nat) : Res (Option GoError) × Nat :=
  (Res.ret (some (GoError.status false "forbidden")), s + 1)

/-- A function `fn` that returns a conflict on its first call and `nil`
afterwards; the state counts the calls. -/
def conflictOnceFn (s : Nat) : Res (Option GoError) × Nat :=
  if s = 0 then (Res.ret (some (GoError.status true "conflict")), s + 1)
  else (Res.ret none, s + 1)

/-! ## Mutator lemmas -/

theorem DisableAddress_foldl (address : String) (l : List EndpointAddress)
    (acc : List EndpointAddress × List EndpointAddress) :
    l.foldl (DisableAddress.step address) acc =
      (acc.1 ++ l.filter (fun r => decide (r.IP ≠ address)),
       acc.2 ++ l.filter (fun r => decide (r.IP = address))) := by
  induction l generalizing acc with
  | nil => simp
  | cons x t ih =>
    rw [List.foldl_cons, ih]
    by_cases h : x.IP = address <;> simp [DisableAddress.step, h]

theorem EnableAddress_foldl (address : String) (l : List EndpointAddress)
    (acc : List EndpointAddress × List EndpointAddress) :
    l.foldl (EnableAddress.step address) acc =
      (acc.1 ++ l.filter (fun r => decide (r.IP ≠ address)),
       acc.2 ++ l.filter (fun r => decide (r.IP = address))) := by
  induction l generalizing acc with
  | nil => simp
  | cons x t ih =>
    rw [List.foldl_cons, ih]
    by_cases h : x.IP = address <;> simp [EnableAddress.step, h]

theorem DisableAddress_eq (ep : EndpointSubset) (a : String) :
    DisableAddress ep a =
      { ep with
        Addresses := ep.Addresses.filter (fun r => decide (r.IP ≠ a))
        NotReadyAddresses :=
          ep.NotReadyAddresses ++ ep.Addresses.filter (fun r => decide (r.IP = a)) } := by
  simp [DisableAddress, DisableAddress_foldl]

theorem EnableAddress_eq (ep : EndpointSubset) (a : String) :
    EnableAddress ep a =
      { ep with
        Addresses := ep.Addresses ++ ep.NotReadyAddresses.filter (fun r => decide (r.IP = a))
        NotReadyAddresses := ep.NotReadyAddresses.filter (fun r => decide (r.IP ≠ a)) } := by
  simp [EnableAddress, EnableAddress_foldl]

theorem filter_ne_eq_self (l : List EndpointAddress) (a : String)
    (h : a ∉ l.map EndpointAddress.IP) : l.filter (fun r => decide (r.IP ≠ a)) = l := by
  rw [List.filter_eq_self]
  intro r hr
  have : r.IP ≠ a := fun e => h (e ▸ List.mem_map_of_mem _ hr)
  simpa using this

theorem filter_eq_eq_nil (l : List EndpointAddress) (a : String)
    (h : a ∉ l.map EndpointAddress.IP) : l.filter (fun r => decide (r.IP = a)) = [] := by
  rw [List.filter_eq_nil_iff]
  intro r hr
  have : r.IP ≠ a := fun e => h (e ▸ List.mem_map_of_mem _ hr)
  simpa using this

theorem filter_split_perm (l : List EndpointAddress) (a : String) :
    (l.filter (fun r => decide (r.IP ≠ a)) ++ l.filter (fun r => decide (r.IP = a))).Perm l := by
  induction l with
  | nil => simp
  | cons x t ih =>
    by_cases h : x.IP = a
    · simp only [List.filter_cons, h, ne_eq, not_true_eq_false, decide_False, decide_True,
        Bool.false_eq_true, if_false, if_true]
      exact List.perm_middle.trans (ih.cons x)
    · simp only [List.filter_cons, h, ne_eq, not_false_eq_true, decide_False, decide_True,
        Bool.false_eq_true, if_false, if_true, List.cons_append]
      exact ih.cons x

theorem DisableAddress_Addresses (ep : EndpointSubset) (a : String) :
    (DisableAddress ep a).Addresses = ep.Addresses.filter (fun r => decide (r.IP ≠ a)) := by
  rw [DisableAddress_eq]

theorem DisableAddress_NotReady (ep : EndpointSubset) (a : String) :
    (DisableAddress ep a).NotReadyAddresses =
      ep.NotReadyAddresses ++ ep.Addresses.filter (fun r => decide (r.IP = a)) := by
  rw [DisableAddress_eq]

theorem EnableAddress_Addresses (ep : EndpointSubset) (a : String) :
    (EnableAddress ep a).Addresses =
      ep.Addresses ++ ep.NotReadyAddresses.filter (fun r => decide (r.IP = a)) := by
  rw [EnableAddress_eq]

theorem EnableAddress_NotReady (ep : EndpointSubset) (a : String) :
    (EnableAddress ep a).NotReadyAddresses =
      ep.NotReadyAddresses.filter (fun r => decide (r.IP ≠ a)) := by
  rw [EnableAddress_eq]

theorem DisableAddress_perm (ep : EndpointSubset) (a : String) :
    ((DisableAddress ep a).Addresses ++ (DisableAddress ep a).NotReadyAddresses).Perm
      (ep.Addresses ++ ep.NotReadyAddresses) := by
  rw [DisableAddress_Addresses, DisableAddress_NotReady]
  have h := filter_split_perm ep.Addresses a
  have h1 : (ep.Addresses.filter (fun r => decide (r.IP ≠ a)) ++
      (ep.NotReadyAddresses ++ ep.Addresses.filter (fun r => decide (r.IP = a)))).Perm
      (ep.Addresses.filter (fun r => decide (r.IP ≠ a)) ++
        (ep.Addresses.filter (fun r => decide (r.IP = a)) ++ ep.NotReadyAddresses)) :=
    List.Perm.append_left _ List.perm_append_comm
  refine h1.trans ?_
  rw [← List.append_assoc]
  exact List.Perm.append_right _ h

theorem EnableAddress_perm (ep : EndpointSubset) (a : String) :
    ((EnableAddress ep a).Addresses ++ (EnableAddress ep a).NotReadyAddresses).Perm
      (ep.Addresses ++ ep.NotReadyAddresses) := by
  rw [EnableAddress_Addresses, EnableAddress_NotReady, List.append_assoc]
  refine List.Perm.append_left _ ?_
  exact List.perm_append_comm.trans (filter_split_perm ep.NotReadyAddresses a)

theorem filter_eq_of_nodup (l : List EndpointAddress) (r : EndpointAddress)
    (hnd : (l.map EndpointAddress.IP).Nodup) (hr : r ∈ l) :
    l.filter (fun x => decide (x.IP = r.IP)) = [r] ∧
    l.filter (fun x => decide (x.IP ≠ r.IP)) = l.erase r := by
  induction l with
  | nil => simp at hr
  | cons x t ih =>
    rw [List.map_cons, List.nodup_cons] at hnd
    rcases List.mem_cons.mp hr with rfl | hrt
    · have h1 := filter_eq_eq_nil t r.IP hnd.1
      have h2 := filter_ne_eq_self t r.IP hnd.1
      rw [List.filter_cons_of_pos (by simp), List.filter_cons_of_neg (by simp), h1, h2,
        List.erase_cons_head]
      exact ⟨rfl, rfl⟩
    · have hne : x.IP ≠ r.IP := fun e => hnd.1 (e ▸ List.mem_map_of_mem _ hrt)
      have hxr : x ≠ r := fun e => hne (e ▸ rfl)
      obtain ⟨i1, i2⟩ := ih hnd.2 hrt
      rw [List.filter_cons_of_neg (by simpa using hne), List.filter_cons_of_pos (by simpa using hne),
        i1, i2, List.erase_cons_tail (by simpa using hxr)]
      exact ⟨rfl, rfl⟩

/-! ## The classification map -/

theorem AddrMap.get_assign (m : AddrMap) (k : String) (v : Bool) (k' : String) :
    AddrMap.get (AddrMap.assign m k v) k' = if k' = k then v else AddrMap.get m k' := by
  induction m with
  | nil =>
    by_cases h : k' = k
    · subst h; simp [AddrMap.assign, AddrMap.get]
    · have h' : ¬ k = k' := fun e => h e.symm
      simp [AddrMap.assign, AddrMap.get, h, h']
  | cons p t ih =>
    obtain ⟨k0, v0⟩ := p
    by_cases h0 : k0 = k
    · subst h0
      by_cases h : k' = k0
      · subst h; simp [AddrMap.assign, AddrMap.get]
      · have h' : ¬ k0 = k' := fun e => h e.symm
        simp [AddrMap.assign, AddrMap.get, h, h']
    · by_cases h : k' = k
      · subst h
        simp [AddrMap.assign, AddrMap.get, h0, ih]
      · by_cases h1 : k0 = k'
        · subst h1; simp [AddrMap.assign, AddrMap.get, h0]
        · simp [AddrMap.assign, AddrMap.get, h0, h, h1, ih]

theorem AddrMap.mem_keys_assign (m : AddrMap) (k : String) (v : Bool) (k' : String) :
    k' ∈ AddrMap.keys (AddrMap.assign m k v) ↔ k' = k ∨ k' ∈ AddrMap.keys m := by
  induction m with
  | nil => simp [AddrMap.assign, AddrMap.keys]
  | cons p t ih =>
    obtain ⟨k0, v0⟩ := p
    by_cases h0 : k0 = k
    · subst h0
      simp [AddrMap.assign, AddrMap.keys]
    · have ih' : k' ∈ List.map Prod.fst (AddrMap.assign t k v) ↔
          k' = k ∨ k' ∈ List.map Prod.fst t := ih
      simp only [AddrMap.assign, h0, if_false, AddrMap.keys, List.map_cons, List.mem_cons, ih']
      tauto

theorem AddrMap.nodup_keys_assign (m : AddrMap) (k : String) (v : Bool)
    (h : (AddrMap.keys m).Nodup) : (AddrMap.keys (AddrMap.assign m k v)).Nodup := by
  induction m with
  | nil => simp [AddrMap.assign, AddrMap.keys]
  | cons p t ih =>
    obtain ⟨k0, v0⟩ := p
    have h' : k0 ∉ AddrMap.keys t ∧ (AddrMap.keys t).Nodup := by
      simpa [AddrMap.keys] using h
    by_cases h0 : k0 = k
    · subst h0
      simpa [AddrMap.assign, AddrMap.keys] using h
    · have hk : k0 ∉ AddrMap.keys (AddrMap.assign t k v) := by
        rw [AddrMap.mem_keys_assign]
        rintro (e | e)
        · exact h0 e
        · exact h'.1 e
      have := ih h'.2
      simp only [AddrMap.assign, h0, if_false]
      exact List.nodup_cons.mpr ⟨hk, this⟩

theorem foldl_assign_get (l : List EndpointAddress) (b : Bool) (m : AddrMap) (k : String) :
    AddrMap.get (l.foldl (fun m addr => AddrMap.assign m addr.IP b) m) k =
      if k ∈ l.map EndpointAddress.IP then b else AddrMap.get m k := by
  induction l generalizing m with
  | nil => simp
  | cons x t ih =>
    rw [List.foldl_cons, ih, AddrMap.get_assign]
    by_cases h1 : k ∈ t.map EndpointAddress.IP
    · simp [h1]
    · by_cases h2 : k = x.IP
      · simp [h2]
      · have h1' : ¬ ∃ a ∈ t, a.IP = k := by simpa using h1
        simp [h1', h2]

theorem foldl_assign_mem_keys (l : List EndpointAddress) (b : Bool) (m : AddrMap) (k : String) :
    k ∈ AddrMap.keys (l.foldl (fun m addr => AddrMap.assign m addr.IP b) m) ↔
      k ∈ AddrMap.keys m ∨ k ∈ l.map EndpointAddress.IP := by
  induction l generalizing m with
  | nil => simp
  | cons x t ih =>
    rw [List.foldl_cons, ih, AddrMap.mem_keys_assign, List.map_cons, List.mem_cons]
    tauto

theorem foldl_assign_nodup (l : List EndpointAddress) (b : Bool) (m : AddrMap)
    (h : (AddrMap.keys m).Nodup) :
    (AddrMap.keys (l.foldl (fun m addr => AddrMap.assign m addr.IP b) m)).Nodup := by
  induction l generalizing m with
  | nil => simpa using h
  | cons x t ih =>
    rw [List.foldl_cons]
    exact ih _ (AddrMap.nodup_keys_assign m x.IP b h)

theorem GetAddresses_get (ep : EndpointSubset) (k : String) :
    AddrMap.get (GetAddresses ep) k =
      (decide (k ∈ ep.Addresses.map EndpointAddress.IP) &&
        !decide (k ∈ ep.NotReadyAddresses.map EndpointAddress.IP)) := by
  unfold GetAddresses
  simp only
  rw [foldl_assign_get, foldl_assign_get]
  by_cases h1 : k ∈ ep.NotReadyAddresses.map EndpointAddress.IP
  · simp only [h1, if_true, decide_True, Bool.not_true, Bool.and_false]
  · by_cases h2 : k ∈ ep.Addresses.map EndpointAddress.IP
    · simp only [h1, h2, if_true, if_false, decide_True, decide_False, Bool.not_false,
        Bool.and_self]
    · simp only [h1, h2, if_false, decide_False, Bool.not_false, Bool.and_true]
      rfl

theorem GetAddresses_mem_keys (ep : EndpointSubset) (k : String) :
    k ∈ AddrMap.keys (GetAddresses ep) ↔ k ∈ ep.allIPs := by
  unfold GetAddresses
  simp only
  rw [foldl_assign_mem_keys, foldl_assign_mem_keys]
  simp [EndpointSubset.allIPs, AddrMap.keys]

theorem GetAddresses_nodup_keys (ep : EndpointSubset) :
    (AddrMap.keys (GetAddresses ep)).Nodup := by
  unfold GetAddresses
  simp only
  exact foldl_assign_nodup _ _ _ (foldl_assign_nodup _ _ _ (by simp [AddrMap.keys]))

/-! ## The result-processing loop -/

theorem DisableAddress_of_not_mem (ep : EndpointSubset) (a : String)
    (h : a ∉ ep.Addresses.map EndpointAddress.IP) : DisableAddress ep a = ep := by
  rw [DisableAddress_eq, filter_ne_eq_self _ _ h, filter_eq_eq_nil _ _ h, List.append_nil]

theorem EnableAddress_of_not_mem (ep : EndpointSubset) (a : String)
    (h : a ∉ ep.NotReadyAddresses.map EndpointAddress.IP) : EnableAddress ep a = ep := by
  rw [EnableAddress_eq, filter_ne_eq_self _ _ h, filter_eq_eq_nil _ _ h, List.append_nil]

theorem resultLoop_complete (addresses : AddrMap) (n : Nat) (ch : List ValidIP) (st : LoopState)
    (h : ch.length = n) :
    resultLoop addresses n ch st = some (ch.foldl (processResult addresses) st, []) := by
  induction ch generalizing n st with
  | nil =>
    subst h
    rfl
  | cons r t ih =>
    subst h
    simp only [List.length_cons, resultLoop, List.foldl_cons]
    exact ih _ _ rfl

theorem processResult_of_agrees (addresses : AddrMap) (st : LoopState) (r : ValidIP)
    (h : disagrees addresses r = false) : processResult addresses st r = st := by
  unfold disagrees at h
  rw [Bool.or_eq_false_iff] at h
  simp [processResult, h.1, h.2]

theorem processResult_changed (addresses : AddrMap) (st : LoopState) (r : ValidIP) :
    (processResult addresses st r).changedState = (st.changedState || disagrees addresses r) := by
  unfold processResult disagrees
  cases h1 : (AddrMap.get addresses r.ip && !r.available) <;>
    cases h2 : (!AddrMap.get addresses r.ip && r.available) <;> simp

theorem foldl_processResult_changed (addresses : AddrMap) (rs : List ValidIP) (st : LoopState) :
    (rs.foldl (processResult addresses) st).changedState =
      (st.changedState || rs.any (disagrees addresses)) := by
  induction rs generalizing st with
  | nil => simp
  | cons r t ih =>
    rw [List.foldl_cons, ih, processResult_changed, List.any_cons, Bool.or_assoc]

theorem foldl_processResult_of_agree (addresses : AddrMap) (rs : List ValidIP) (st : LoopState)
    (h : ∀ r ∈ rs, disagrees addresses r = false) :
    rs.foldl (processResult addresses) st = st := by
  induction rs generalizing st with
  | nil => rfl
  | cons r t ih =>
    rw [List.foldl_cons, processResult_of_agrees _ _ _ (h r (List.mem_cons_self _ _))]
    exact ih st (fun x hx => h x (List.mem_cons_of_mem _ hx))

theorem processResult_perm (addresses : AddrMap) (st : LoopState) (r : ValidIP) :
    ((processResult addresses st r).eps.Addresses ++
        (processResult addresses st r).eps.NotReadyAddresses).Perm
      (st.eps.Addresses ++ st.eps.NotReadyAddresses) := by
  unfold processResult
  split
  · exact DisableAddress_perm _ _
  · split
    · exact EnableAddress_perm _ _
    · exact List.Perm.refl _

theorem foldl_processResult_perm (addresses : AddrMap) (rs : List ValidIP) (st : LoopState) :
    ((rs.foldl (processResult addresses) st).eps.Addresses ++
        (rs.foldl (processResult addresses) st).eps.NotReadyAddresses).Perm
      (st.eps.Addresses ++ st.eps.NotReadyAddresses) := by
  induction rs generalizing st with
  | nil => exact List.Perm.refl _
  | cons r t ih =>
    rw [List.foldl_cons]
    exact (ih _).trans (processResult_perm addresses st r)

theorem processResult_eps_of_absent (addresses : AddrMap) (st : LoopState) (r : ValidIP)
    (hget : AddrMap.get addresses r.ip = false)
    (hnot : r.ip ∉ st.eps.NotReadyAddresses.map EndpointAddress.IP) :
    (processResult addresses st r).eps = st.eps := by
  unfold processResult
  rw [hget]
  cases r.available
  · simp
  · simp [EnableAddress_of_not_mem _ _ hnot]

theorem DisableAddress_mem (ep : EndpointSubset) (a : String) (x : EndpointAddress) :
    (x ∈ (DisableAddress ep a).Addresses ↔ x ∈ ep.Addresses ∧ x.IP ≠ a) ∧
    (x ∈ (DisableAddress ep a).NotReadyAddresses ↔
      x ∈ ep.NotReadyAddresses ∨ (x ∈ ep.Addresses ∧ x.IP = a)) := by
  rw [DisableAddress_Addresses, DisableAddress_NotReady]
  simp [List.mem_filter]

theorem EnableAddress_mem (ep : EndpointSubset) (a : String) (x : EndpointAddress) :
    (x ∈ (EnableAddress ep a).NotReadyAddresses ↔ x ∈ ep.NotReadyAddresses ∧ x.IP ≠ a) ∧
    (x ∈ (EnableAddress ep a).Addresses ↔
      x ∈ ep.Addresses ∨ (x ∈ ep.NotReadyAddresses ∧ x.IP = a)) := by
  rw [EnableAddress_Addresses, EnableAddress_NotReady]
  simp [List.mem_filter]

theorem loop_invariant (ep : EndpointSubset)
    (hdisj : ∀ x ∈ ep.Addresses, x.IP ∉ ep.NotReadyAddresses.map EndpointAddress.IP)
    (rs : List ValidIP) (x : EndpointAddress) :
    (x ∈ (rs.foldl (processResult (GetAddresses ep))
          { eps := ep, changedState := false }).eps.Addresses ↔
      (x ∈ ep.Addresses ∧ ({ available := false, ip := x.IP } : ValidIP) ∉ rs) ∨
      (x ∈ ep.NotReadyAddresses ∧ ({ available := true, ip := x.IP } : ValidIP) ∈ rs)) ∧
    (x ∈ (rs.foldl (processResult (GetAddresses ep))
          { eps := ep, changedState := false }).eps.NotReadyAddresses ↔
      (x ∈ ep.NotReadyAddresses ∧ ({ available := true, ip := x.IP } : ValidIP) ∉ rs) ∨
      (x ∈ ep.Addresses ∧ ({ available := false, ip := x.IP } : ValidIP) ∈ rs)) := by
  have hA : x ∈ ep.Addresses → AddrMap.get (GetAddresses ep) x.IP = true := by
    intro hx
    rw [GetAddresses_get]
    have h1 : x.IP ∈ ep.Addresses.map EndpointAddress.IP := List.mem_map_of_mem _ hx
    have h2 := hdisj x hx
    simp only [h1, h2, decide_True, decide_False, Bool.not_false, Bool.and_self]
  have hN : x ∈ ep.NotReadyAddresses → AddrMap.get (GetAddresses ep) x.IP = false := by
    intro hx
    rw [GetAddresses_get]
    have h1 : x.IP ∈ ep.NotReadyAddresses.map EndpointAddress.IP := List.mem_map_of_mem _ hx
    simp only [h1, decide_True, Bool.not_true, Bool.and_false]
  induction rs using List.reverseRecOn with
  | nil => simp
  | append_singleton rs r ih =>
    rw [List.foldl_append, List.foldl_cons, List.foldl_nil]
    generalize (rs.foldl (processResult (GetAddresses ep))
      { eps := ep, changedState := false }) = st at ih ⊢
    obtain ⟨ih1, ih2⟩ := ih
    obtain ⟨b, ip⟩ := r
    have m1 : ∀ c : Bool, (({ available := c, ip := x.IP } : ValidIP) ∈
        rs ++ [{ available := b, ip := ip }]) ↔
        (({ available := c, ip := x.IP } : ValidIP) ∈ rs ∨ (c = b ∧ x.IP = ip)) := by
      intro c
      simp [List.mem_append]
    rw [m1, m1]
    by_cases hx : x.IP = ip
    · subst hx
      cases hg : AddrMap.get (GetAddresses ep) x.IP <;> cases b
      · have hnA : x ∉ ep.Addresses := fun h => by simpa [hg] using hA h
        simp [processResult, hg, ih1, ih2, hnA]
      · have hnA : x ∉ ep.Addresses := fun h => by simpa [hg] using hA h
        simp [processResult, hg, (EnableAddress_mem _ _ _).1, (EnableAddress_mem _ _ _).2,
          ih1, ih2, hnA]
        tauto
      · have hnN : x ∉ ep.NotReadyAddresses := fun h => by simpa [hg] using hN h
        simp [processResult, hg, (DisableAddress_mem _ _ _).1, (DisableAddress_mem _ _ _).2,
          ih1, ih2, hnN]
        tauto
      · have hnN : x ∉ ep.NotReadyAddresses := fun h => by simpa [hg] using hN h
        simp [processResult, hg, ih1, ih2, hnN]
    · have e1 := DisableAddress_mem st.eps ip x
      have e2 := EnableAddress_mem st.eps ip x
      unfold processResult
      split
      · simp only [e1.1, e1.2, ih1, ih2, hx, and_false, or_false, ne_eq, not_false_eq_true,
          and_true]
      · split
        · simp only [e2.1, e2.2, ih1, ih2, hx, and_false, or_false, ne_eq, not_false_eq_true,
            and_true]
        · simp [ih1, ih2, hx]

theorem batch_dichotomy (rs : List ValidIP) (ip0 : String)
    (hnd : (rs.map ValidIP.ip).Nodup) (hmem : ip0 ∈ rs.map ValidIP.ip) :
    (({ available := true, ip := ip0 } : ValidIP) ∈ rs ↔
      ({ available := false, ip := ip0 } : ValidIP) ∉ rs) := by
  constructor
  · intro h1 h2
    have := List.inj_on_of_nodup_map hnd h1 h2 rfl
    simp at this
  · intro h2
    obtain ⟨r, hr, hip⟩ := List.mem_map.mp hmem
    obtain ⟨b, ip⟩ := r
    simp only at hip
    subst hip
    cases b
    · exact absurd hr h2
    · exact hr

/-! ## The cycle body -/

theorem checkIP_ips (net : String → ConnOutcome) (port ip : String) :
    (checkIP net port ip).map ValidIP.ip = [ip] := by
  cases hd : (net (ip ++ ":" ++ port)).dialErr with
  | none =>
    by_cases hr : (net (ip ++ ":" ++ port)).readErr = some ReadErr.EOF
    · simp [checkIP, hd, hr]
    · simp [checkIP, hd, hr]
  | some e => simp [checkIP, hd]

theorem flatMap_checkIP_ips (net : String → ConnOutcome) (port : String) (keys : List String) :
    (keys.flatMap (checkIP net port)).map ValidIP.ip = keys := by
  induction keys with
  | nil => rfl
  | cons k t ih =>
    rw [List.flatMap_cons, List.map_append, ih, checkIP_ips]
    rfl

theorem probeBatch_perm (c : Cluster) (hfair : c.Fair) (round : Nat) (s : EndpointSubset) :
    ((probeBatch c round s).map ValidIP.ip).Perm (AddrMap.keys (GetAddresses s)) := by
  unfold probeBatch
  have h := (hfair round ((AddrMap.keys (GetAddresses s)).flatMap
    (checkIP (c.net round) c.port))).map ValidIP.ip
  rw [flatMap_checkIP_ips] at h
  exact h

theorem probeBatch_length (c : Cluster) (hfair : c.Fair) (round : Nat) (s : EndpointSubset) :
    (probeBatch c round s).length = AddrMap.len (GetAddresses s) := by
  have := (probeBatch_perm c hfair round s).length_eq
  simpa [AddrMap.len, AddrMap.keys] using this

theorem fetchSubset_of_single (c : Cluster) (w : World) (ep : Endpoints) (s : EndpointSubset)
    (hget : c.getResp w.gets = Except.ok ep) (hsub : ep.Subsets = [s]) :
    fetchSubset c w =
      (Res.ret (ep, s, []), { w with gets := w.gets + 1, log := w.log ++ [Event.get] }) := by
  simp [fetchSubset, getEndpoints, hget, hsub]

theorem cycleBody_of_single (c : Cluster) (w : World) (ep : Endpoints) (s : EndpointSubset)
    (hget : c.getResp w.gets = Except.ok ep) (hsub : ep.Subsets = [s]) :
    cycleBody c w =
      probeAndCommit c ep s [] { w with gets := w.gets + 1, log := w.log ++ [Event.get] } := by
  simp [cycleBody, fetchSubset_of_single c w ep s hget hsub]

theorem probeAndCommit_of_fair (c : Cluster) (hfair : c.Fair) (ep : Endpoints)
    (s : EndpointSubset) (rest : List EndpointSubset) (w : World) :
    probeAndCommit c ep s rest w =
      if ((probeBatch c w.rounds s).foldl (processResult (GetAddresses s))
          { eps := s, changedState := false }).changedState = true then
        (Res.ret (c.updateResp w.updates (payload ep
            ((probeBatch c w.rounds s).foldl (processResult (GetAddresses s))
              { eps := s, changedState := false }) rest)),
          { gets := w.gets, rounds := w.rounds + 1, updates := w.updates + 1,
            log := w.log ++ (AddrMap.keys (GetAddresses s)).map Event.probe ++
              [Event.update (payload ep
                ((probeBatch c w.rounds s).foldl (processResult (GetAddresses s))
                  { eps := s, changedState := false }) rest)] })
      else
        (Res.ret none,
          { gets := w.gets, rounds := w.rounds + 1, updates := w.updates,
            log := w.log ++ (AddrMap.keys (GetAddresses s)).map Event.probe }) := by
  unfold probeAndCommit
  simp only
  rw [resultLoop_complete _ _ _ _ (probeBatch_length c hfair w.rounds s)]

theorem probeAndCommit_rounds (c : Cluster) (ep : Endpoints) (s : EndpointSubset)
    (rest : List EndpointSubset) (w : World) :
    (probeAndCommit c ep s rest w).2.rounds = w.rounds + 1 ∧
    ∀ ip ∈ AddrMap.keys (GetAddresses s), Event.probe ip ∈ (probeAndCommit c ep s rest w).2.log := by
  have hmem : ∀ ip ∈ AddrMap.keys (GetAddresses s),
      Event.probe ip ∈ w.log ++ (AddrMap.keys (GetAddresses s)).map Event.probe :=
    fun ip hip => List.mem_append_right _ (List.mem_map_of_mem _ hip)
  unfold probeAndCommit
  simp only
  split
  · exact ⟨rfl, hmem⟩
  · split
    · exact ⟨rfl, fun ip hip => List.mem_append_left _ (hmem ip hip)⟩
    · exact ⟨rfl, hmem⟩

theorem any_disagrees_iff (addresses : AddrMap) (rs : List ValidIP) :
    rs.any (disagrees addresses) = true ↔ ∃ r ∈ rs, disagrees addresses r = true := by
  simp [List.any_eq_true]

/-! ## The retry loop -/

theorem EB_step_nil {σ : Type} (fn : σ → Res (Option GoError) × σ) (n : Nat) (s s1 : σ)
    (last : Option GoError) (h : fn s = (Res.ret none, s1)) :
    ExponentialBackoff (RetryOnConflict.condition fn) (n + 1) (s, last) =
      (Res.ret none, (s1, last)) := by
  simp [ExponentialBackoff, RetryOnConflict.condition, h]

theorem EB_step_conflict {σ : Type} (fn : σ → Res (Option GoError) × σ) (n : Nat) (s s1 : σ)
    (last : Option GoError) (e : GoError) (h : fn s = (Res.ret (some e), s1))
    (hc : IsConflict e = true) :
    ExponentialBackoff (RetryOnConflict.condition fn) (n + 1) (s, last) =
      ExponentialBackoff (RetryOnConflict.condition fn) n (s1, some e) := by
  simp [ExponentialBackoff, RetryOnConflict.condition, h, hc]

theorem EB_step_err {σ : Type} (fn : σ → Res (Option GoError) × σ) (n : Nat) (s s1 : σ)
    (last : Option GoError) (e : GoError) (h : fn s = (Res.ret (some e), s1))
    (hc : IsConflict e = false) :
    ExponentialBackoff (RetryOnConflict.condition fn) (n + 1) (s, last) =
      (Res.ret (some e), (s1, last)) := by
  simp [ExponentialBackoff, RetryOnConflict.condition, h, hc]

theorem EB_step_panicked {σ : Type} (fn : σ → Res (Option GoError) × σ) (n : Nat) (s s1 : σ)
    (last : Option GoError) (msg : String) (h : fn s = (Res.panicked msg, s1)) :
    ExponentialBackoff (RetryOnConflict.condition fn) (n + 1) (s, last) =
      (Res.panicked msg, (s1, last)) := by
  simp [ExponentialBackoff, RetryOnConflict.condition, h]

theorem fn_attempt {σ : Type} (fn : σ → Res (Option GoError) × σ) (s : σ) (k : Nat) :
    fn (attemptState fn s k) = (attemptResult fn s k, attemptState fn s (k + 1)) := rfl

theorem EB_conflicts {σ : Type} (fn : σ → Res (Option GoError) × σ) (s : σ) (k : Nat)
    (hk : ∀ j < k, attemptConflict fn s j) (n : Nat) (last : Option GoError) :
    ∃ last' : Option GoError,
      ExponentialBackoff (RetryOnConflict.condition fn) (n + k) (s, last) =
        ExponentialBackoff (RetryOnConflict.condition fn) n (attemptState fn s k, last') ∧
      (k = 0 → last' = last) ∧
      (∀ e, 0 < k → attemptResult fn s (k - 1) = Res.ret (some e) → last' = some e) := by
  induction k generalizing n with
  | zero => exact ⟨last, rfl, fun _ => rfl, fun e h => absurd h (Nat.lt_irrefl 0)⟩
  | succ k ih =>
    obtain ⟨last', h1, _, _⟩ := ih (fun j hj => hk j (Nat.lt_succ_of_lt hj)) (n + 1)
    obtain ⟨e, he, hc⟩ := hk k (Nat.lt_succ_self k)
    have hfn : fn (attemptState fn s k) = (Res.ret (some e), attemptState fn s (k + 1)) := by
      rw [fn_attempt fn s k, he]
    refine ⟨some e, ?_, fun h => absurd h (Nat.succ_ne_zero k), ?_⟩
    · have : n + (k + 1) = n + 1 + k := by omega
      rw [this, h1, EB_step_conflict fn n _ _ last' e hfn hc]
    · intro e' _ he'
      rw [Nat.add_sub_cancel, he] at he'
      cases he'
      rfl

theorem attempt_counting {σ : Type} (fn : σ → Res (Option GoError) × σ) (s : σ) (m k : Nat) :
    attemptState (counting fn) (s, m) k = (attemptState fn s k, m + k) ∧
    attemptResult (counting fn) (s, m) k = attemptResult fn s k := by
  induction k with
  | zero => exact ⟨rfl, rfl⟩
  | succ k ih =>
    have h1 : attemptState (counting fn) (s, m) (k + 1) = (attemptState fn s (k + 1), m + (k + 1)) := by
      show (counting fn (attemptState (counting fn) (s, m) k)).2 = _
      rw [ih.1]
      rfl
    refine ⟨h1, ?_⟩
    show (counting fn (attemptState (counting fn) (s, m) (k + 1))).1 = _
    rw [h1]
    rfl

theorem attemptConflict_counting {σ : Type} (fn : σ → Res (Option GoError) × σ) (s : σ)
    (m k : Nat) (h : attemptConflict fn s k) : attemptConflict (counting fn) (s, m) k := by
  obtain ⟨e, he, hc⟩ := h
  exact ⟨e, by rw [(attempt_counting fn s m k).2, he], hc⟩

theorem EB_count_le {σ : Type} (fn : σ → Res (Option GoError) × σ) (n : Nat) (s : σ) (m : Nat)
    (last : Option GoError) :
    (ExponentialBackoff (RetryOnConflict.condition (counting fn)) n ((s, m), last)).2.1.2 ≤
      m + n := by
  induction n generalizing s m last with
  | zero => simp [ExponentialBackoff]
  | succ n ih =>
    rcases hfn : fn s with ⟨r, s1⟩
    have hc : counting fn (s, m) = (r, (s1, m + 1)) := by simp [counting, hfn]
    cases r with
    | ret v =>
      cases v with
      | none =>
        rw [EB_step_nil (counting fn) n (s, m) (s1, m + 1) last hc]
        simp
      | some e =>
        cases hcf : IsConflict e
        · rw [EB_step_err (counting fn) n (s, m) (s1, m + 1) last e hc hcf]
          simp
        · rw [EB_step_conflict (counting fn) n (s, m) (s1, m + 1) last e hc hcf]
          have := ih s1 (m + 1) (some e)
          omega
    | panicked msg =>
      rw [EB_step_panicked (counting fn) n (s, m) (s1, m + 1) last msg hc]
      simp
    | blocked =>
      have : ExponentialBackoff (RetryOnConflict.condition (counting fn)) (n + 1) ((s, m), last) =
          (Res.blocked, ((s1, m + 1), last)) := by
        simp [ExponentialBackoff, RetryOnConflict.condition, hc]
      rw [this]
      simp

theorem RetryOnConflict_state {σ : Type} (backoff : Backoff) (fn : σ → Res (Option GoError) × σ)
    (s : σ) :
    (RetryOnConflict backoff fn s).2 =
      (ExponentialBackoff (RetryOnConflict.condition fn) backoff.Steps.toNat (s, none)).2.1 := by
  unfold RetryOnConflict
  rcases ExponentialBackoff (RetryOnConflict.condition fn) backoff.Steps.toNat (s, none) with
    ⟨r, s1, last⟩
  cases r <;> rfl

theorem DefaultRetry_steps : DefaultRetry.Steps.toNat = 5 := rfl

theorem RetryOnConflict_of_EB {σ : Type} (fn : σ → Res (Option GoError) × σ) (s s1 : σ)
    (err last : Option GoError)
    (h : ExponentialBackoff (RetryOnConflict.condition fn) 5 (s, none) =
      (Res.ret err, (s1, last))) :
    RetryOnConflict DefaultRetry fn s =
      (Res.ret (if err = some GoError.ErrWaitTimeout then last else err), s1) := by
  unfold RetryOnConflict
  rw [DefaultRetry_steps, h]

theorem RetryOnConflict_of_panicked {σ : Type} (fn : σ → Res (Option GoError) × σ) (s s1 : σ)
    (msg : String) (h : fn s = (Res.panicked msg, s1)) :
    RetryOnConflict DefaultRetry fn s = (Res.panicked msg, s1) := by
  unfold RetryOnConflict
  rw [DefaultRetry_steps, EB_step_panicked fn 4 s s1 none msg h]

theorem sampleCluster_fair : sampleCluster.Fair :=
  fun _ l => List.reverse_perm l

theorem cycleBody_of_disagreement (c : Cluster) (w : World) (ep : Endpoints)
    (s : EndpointSubset) (hfair : c.Fair) (hget : c.getResp w.gets = Except.ok ep)
    (hsub : ep.Subsets = [s])
    (hdis : ∃ r ∈ probeBatch c w.rounds s, disagrees (GetAddresses s) r = true) :
    cycleBody c w =
      (Res.ret (c.updateResp w.updates (payload ep
        ((probeBatch c w.rounds s).foldl (processResult (GetAddresses s))
          { eps := s, changedState := false }) [])),
        { gets := w.gets + 1, rounds := w.rounds + 1, updates := w.updates + 1,
          log := w.log ++ [Event.get] ++ (AddrMap.keys (GetAddresses s)).map Event.probe ++
            [Event.update (payload ep
              ((probeBatch c w.rounds s).foldl (processResult (GetAddresses s))
                { eps := s, changedState := false }) [])] }) := by
  have hchg := foldl_processResult_changed (GetAddresses s) (probeBatch c w.rounds s)
    { eps := s, changedState := false }
  have hany := (any_disagrees_iff (GetAddresses s) (probeBatch c w.rounds s)).mpr hdis
  rw [hany] at hchg
  rw [cycleBody_of_single c w ep s hget hsub, probeAndCommit_of_fair c hfair]
  simp only
  rw [if_pos (by rw [hchg]; rfl)]

theorem iteration_of_panicked (c : Cluster) (w w1 : World) (msg : String)
    (h : cycleBody c w = (Res.panicked msg, w1)) :
    checkEndpoints.iteration c w = (Res.panicked msg, w1) := by
  unfold checkEndpoints.iteration
  rw [RetryOnConflict_of_panicked (cycleBody c) w w1 msg h]

/-! ## The claims about the mutator and the prober -/

/-- C2: `DisableAddress ep a` sets the ready pool to the old ready pool
without the records whose IP is `a` (a filter, so the other records keep their
order) and the not-ready pool to the old not-ready pool followed by the
removed records; `EnableAddress ep a` is the mirror image; the ports are not
touched; and when `a` is not in the source pool the subset is unchanged. -/
theorem mutator_moves_records (ep : EndpointSubset) (a : String) :
    ((DisableAddress ep a).Addresses = ep.Addresses.filter (fun r => decide (r.IP ≠ a)) ∧
     (DisableAddress ep a).NotReadyAddresses =
        ep.NotReadyAddresses ++ ep.Addresses.filter (fun r => decide (r.IP = a)) ∧
     (DisableAddress ep a).Ports = ep.Ports) ∧
    ((EnableAddress ep a).NotReadyAddresses =
        ep.NotReadyAddresses.filter (fun r => decide (r.IP ≠ a)) ∧
     (EnableAddress ep a).Addresses =
        ep.Addresses ++ ep.NotReadyAddresses.filter (fun r => decide (r.IP = a)) ∧
     (EnableAddress ep a).Ports = ep.Ports) ∧
    (a ∉ ep.Addresses.map EndpointAddress.IP → DisableAddress ep a = ep) ∧
    (a ∉ ep.NotReadyAddresses.map EndpointAddress.IP → EnableAddress ep a = ep) := by
  refine ⟨?_, ?_, ?_, ?_⟩
  · simp [DisableAddress_eq]
  · simp [EnableAddress_eq]
  · exact DisableAddress_of_not_mem ep a
  · exact EnableAddress_of_not_mem ep a

/-- C2, at a concrete subset: disabling and enabling `10.0.0.9`, which is in
neither pool, changes nothing. -/
theorem mutator_moves_records_witness :
    DisableAddress
        { Addresses := [⟨"10.0.0.1", "a", none⟩, ⟨"10.0.0.2", "b", none⟩],
          NotReadyAddresses := [⟨"10.0.0.3", "c", none⟩], Ports := [80] } "10.0.0.9" =
      { Addresses := [⟨"10.0.0.1", "a", none⟩, ⟨"10.0.0.2", "b", none⟩],
        NotReadyAddresses := [⟨"10.0.0.3", "c", none⟩], Ports := [80] } ∧
    EnableAddress
        { Addresses := [⟨"10.0.0.1", "a", none⟩, ⟨"10.0.0.2", "b", none⟩],
          NotReadyAddresses := [⟨"10.0.0.3", "c", none⟩], Ports := [80] } "10.0.0.9" =
      { Addresses := [⟨"10.0.0.1", "a", none⟩, ⟨"10.0.0.2", "b", none⟩],
        NotReadyAddresses := [⟨"10.0.0.3", "c", none⟩], Ports := [80] } :=
  ⟨(mutator_moves_records _ "10.0.0.9").2.2.1 (by decide),
   (mutator_moves_records _ "10.0.0.9").2.2.2 (by decide)⟩

/-- C7: after `DisableAddress` and after `EnableAddress` the concatenation of
the ready and the not-ready pool is a permutation of what it was, so no record
is lost, duplicated or altered; hence a subset in which no IP occurs twice,
within or across pools, stays so. -/
theorem mutator_preserves_pool (ep : EndpointSubset) (a : String) :
    ((DisableAddress ep a).Addresses ++ (DisableAddress ep a).NotReadyAddresses).Perm
        (ep.Addresses ++ ep.NotReadyAddresses) ∧
    ((EnableAddress ep a).Addresses ++ (EnableAddress ep a).NotReadyAddresses).Perm
        (ep.Addresses ++ ep.NotReadyAddresses) ∧
    (ep.NoDupIPs → (DisableAddress ep a).NoDupIPs ∧ (EnableAddress ep a).NoDupIPs) := by
  refine ⟨DisableAddress_perm ep a, EnableAddress_perm ep a, fun h => ⟨?_, ?_⟩⟩
  · exact ((DisableAddress_perm ep a).map EndpointAddress.IP).nodup_iff.mpr h
  · exact ((EnableAddress_perm ep a).map EndpointAddress.IP).nodup_iff.mpr h

/-- C7, at a concrete subset without a repeated IP: it has none after
disabling `10.0.0.1` and none after enabling `10.0.0.3`. -/
theorem mutator_preserves_pool_witness :
    (DisableAddress
        { Addresses := [⟨"10.0.0.1", "a", none⟩, ⟨"10.0.0.2", "b", none⟩],
          NotReadyAddresses := [⟨"10.0.0.3", "c", none⟩], Ports := [80] } "10.0.0.1").NoDupIPs ∧
    (EnableAddress
        { Addresses := [⟨"10.0.0.1", "a", none⟩, ⟨"10.0.0.2", "b", none⟩],
          NotReadyAddresses := [⟨"10.0.0.3", "c", none⟩], Ports := [80] } "10.0.0.3").NoDupIPs :=
  ⟨((mutator_preserves_pool _ "10.0.0.1").2.2 (by decide)).1,
   ((mutator_preserves_pool _ "10.0.0.3").2.2 (by decide)).2⟩

/-- C6: in a subset where no IP occurs twice, disabling and then enabling an
address `a` of the ready pool gives back the original not-ready pool, and a
ready pool that is the original one with the record of `a` taken out of its
place and appended at the end: the same members, the others in their
order. -/
theorem disable_enable_roundtrip (ep : EndpointSubset) (a : String)
    (hnd : ep.NoDupIPs) (ha : a ∈ ep.Addresses.map EndpointAddress.IP) :
    ∃ r ∈ ep.Addresses, r.IP = a ∧
      (EnableAddress (DisableAddress ep a) a).NotReadyAddresses = ep.NotReadyAddresses ∧
      (EnableAddress (DisableAddress ep a) a).Addresses = ep.Addresses.erase r ++ [r] ∧
      ep.Addresses.erase r = ep.Addresses.filter (fun x => decide (x.IP ≠ a)) ∧
      ((EnableAddress (DisableAddress ep a) a).Addresses).Perm ep.Addresses ∧
      (EnableAddress (DisableAddress ep a) a).Ports = ep.Ports := by
  obtain ⟨r, hr, rfl⟩ := List.mem_map.mp ha
  have hnd2 : (ep.Addresses.map EndpointAddress.IP ++
      ep.NotReadyAddresses.map EndpointAddress.IP).Nodup := by
    simpa [EndpointSubset.NoDupIPs, EndpointSubset.allIPs] using hnd
  have hready := (List.nodup_append.mp hnd2).1
  have hdisj := (List.nodup_append.mp hnd2).2.2
  have hnot : r.IP ∉ ep.NotReadyAddresses.map EndpointAddress.IP :=
    fun h => hdisj ha h
  obtain ⟨f1, f2⟩ := filter_eq_of_nodup ep.Addresses r hready hr
  have e1 := filter_ne_eq_self _ _ hnot
  have e2 := filter_eq_eq_nil _ _ hnot
  have g1 : [r].filter (fun x => decide (x.IP ≠ r.IP)) = [] := by
    rw [List.filter_cons_of_neg (by simp), List.filter_nil]
  have g2 : [r].filter (fun x => decide (x.IP = r.IP)) = [r] := by
    rw [List.filter_cons_of_pos (by simp), List.filter_nil]
  have hA : (EnableAddress (DisableAddress ep r.IP) r.IP).Addresses =
      ep.Addresses.erase r ++ [r] := by
    rw [EnableAddress_Addresses, DisableAddress_Addresses, DisableAddress_NotReady,
      List.filter_append, e2, f1, f2, g2, List.nil_append]
  refine ⟨r, hr, rfl, ?_, hA, f2.symm, ?_, ?_⟩
  · rw [EnableAddress_NotReady, DisableAddress_NotReady, List.filter_append, e1, f1, g1,
      List.append_nil]
  · rw [hA]
    exact (List.perm_append_comm.trans (List.perm_cons_erase hr).symm)
  · rw [EnableAddress_eq, DisableAddress_eq]

/-- C6, at a concrete subset: disabling and enabling `10.0.0.1` moves its
record to the end of the ready pool and leaves the not-ready pool as it
was. -/
theorem disable_enable_roundtrip_witness :
    ∃ r ∈ [(⟨"10.0.0.1", "a", none⟩ : EndpointAddress), ⟨"10.0.0.2", "b", none⟩],
      r.IP = "10.0.0.1" ∧
      (EnableAddress (DisableAddress
        { Addresses := [⟨"10.0.0.1", "a", none⟩, ⟨"10.0.0.2", "b", none⟩],
          NotReadyAddresses := [⟨"10.0.0.3", "c", none⟩], Ports := [80] }
        "10.0.0.1") "10.0.0.1").NotReadyAddresses = [⟨"10.0.0.3", "c", none⟩] ∧
      (EnableAddress (DisableAddress
        { Addresses := [⟨"10.0.0.1", "a", none⟩, ⟨"10.0.0.2", "b", none⟩],
          NotReadyAddresses := [⟨"10.0.0.3", "c", none⟩], Ports := [80] }
        "10.0.0.1") "10.0.0.1").Addresses =
        [(⟨"10.0.0.1", "a", none⟩ : EndpointAddress), ⟨"10.0.0.2", "b", none⟩].erase r ++ [r] := by
  obtain ⟨r, hr, h1, h2, h3, _⟩ := disable_enable_roundtrip
    { Addresses := [⟨"10.0.0.1", "a", none⟩, ⟨"10.0.0.2", "b", none⟩],
      NotReadyAddresses := [⟨"10.0.0.3", "c", none⟩], Ports := [80] }
    "10.0.0.1" (by decide) (by decide)
  exact ⟨r, hr, h1, h2, h3⟩

/-- C5: `checkIP` sends exactly one result, it carries the IP that was given,
and its flag `available` is `false` exactly when the dial failed or the read
returned `io.EOF`; with a connection, a read without error, a read timeout
and any other read error all give `available = true`. -/
theorem checkIP_reports (net : String → ConnOutcome) (port ip : String) :
    ∃ available : Bool,
      checkIP net port ip = [{ available := available, ip := ip }] ∧
      (available = false ↔
        ((net (ip ++ ":" ++ port)).dialErr ≠ none ∨
         (net (ip ++ ":" ++ port)).readErr = some ReadErr.EOF)) := by
  cases hd : (net (ip ++ ":" ++ port)).dialErr with
  | none =>
    by_cases hr : (net (ip ++ ":" ++ port)).readErr = some ReadErr.EOF
    · exact ⟨false, by simp [checkIP, hd, hr], by simp [hr]⟩
    · exact ⟨true, by simp [checkIP, hd, hr], by simp [hr]⟩
  | some e => exact ⟨false, by simp [checkIP, hd], by simp⟩

/-! ## The claims about the loop of `checkEndpoints` -/

/-- C10: the stale-result guard holds by construction.  For every cluster
with a fair scheduler, every probing round and every subset, a result whose IP
is not a key of the map made by `GetAddresses` is never among the values the
loop receives (only the probes launched for the keys send on `ch`), so the
loop applies nothing for it: the loop returns, and `changedState` is set
exactly when a received result for a key of the map disagrees with the
classification; and at any point of the loop both pools are as they were
after such a result, reachable or not. -/
theorem stale_result_never_applied (c : Cluster) (round : Nat) (ep : EndpointSubset)
    (r : ValidIP) (hfair : c.Fair) (hr : r.ip ∉ AddrMap.keys (GetAddresses ep)) :
    r ∉ probeBatch c round ep ∧
    (∃ st : LoopState,
      resultLoop (GetAddresses ep) (AddrMap.len (GetAddresses ep)) (probeBatch c round ep)
          { eps := ep, changedState := false } = some (st, []) ∧
      (st.changedState = true ↔
        ∃ r' ∈ probeBatch c round ep,
          r'.ip ∈ AddrMap.keys (GetAddresses ep) ∧ disagrees (GetAddresses ep) r' = true)) ∧
    (∀ rs : List ValidIP,
      (processResult (GetAddresses ep)
          (rs.foldl (processResult (GetAddresses ep)) { eps := ep, changedState := false })
          r).eps =
        (rs.foldl (processResult (GetAddresses ep)) { eps := ep, changedState := false }).eps) := by
  have hkeys : ∀ r' ∈ probeBatch c round ep, r'.ip ∈ AddrMap.keys (GetAddresses ep) :=
    fun r' hr' => (probeBatch_perm c hfair round ep).subset (List.mem_map_of_mem _ hr')
  refine ⟨fun hmem => hr (hkeys r hmem), ?_, ?_⟩
  · refine ⟨(probeBatch c round ep).foldl (processResult (GetAddresses ep))
        { eps := ep, changedState := false },
      resultLoop_complete _ _ _ _ (probeBatch_length c hfair round ep), ?_⟩
    rw [foldl_processResult_changed, Bool.false_or, any_disagrees_iff]
    constructor
    · rintro ⟨r', hr', hd⟩
      exact ⟨r', hr', hkeys r' hr', hd⟩
    · rintro ⟨r', hr', _, hd⟩
      exact ⟨r', hr', hd⟩
  · intro rs
    have hall : r.ip ∉ ep.allIPs := fun h => hr ((GetAddresses_mem_keys ep r.ip).mpr h)
    have hget : AddrMap.get (GetAddresses ep) r.ip = false := by
      rw [GetAddresses_get]
      have : r.ip ∉ ep.Addresses.map EndpointAddress.IP := by
        intro h
        exact hall (by
          unfold EndpointSubset.allIPs
          rw [List.map_append]
          exact List.mem_append_left _ h)
      simp [this]
    have hperm := (foldl_processResult_perm (GetAddresses ep) rs
      { eps := ep, changedState := false }).map EndpointAddress.IP
    have hnot : r.ip ∉ (rs.foldl (processResult (GetAddresses ep))
        { eps := ep, changedState := false }).eps.NotReadyAddresses.map EndpointAddress.IP := by
      intro h
      apply hall
      unfold EndpointSubset.allIPs
      refine hperm.subset ?_
      rw [List.map_append]
      exact List.mem_append_right _ h
    exact processResult_eps_of_absent _ _ _ hget hnot

/-- C10, at the sample cluster: the result "`10.0.0.9` is reachable", for an
IP that is in neither pool of the fetched subset, is not among the values the
loop of the first round receives. -/
theorem stale_result_never_applied_witness :
    "10.0.0.9" ∉ AddrMap.keys (GetAddresses
      { Addresses := [⟨"10.0.0.1", "a", none⟩], NotReadyAddresses := [], Ports := [80] }) ∧
    ({ available := true, ip := "10.0.0.9" } : ValidIP) ∉ probeBatch sampleCluster 0
      { Addresses := [⟨"10.0.0.1", "a", none⟩], NotReadyAddresses := [], Ports := [80] } :=
  ⟨by decide,
   (stale_result_never_applied sampleCluster 0
      { Addresses := [⟨"10.0.0.1", "a", none⟩], NotReadyAddresses := [], Ports := [80] }
      { available := true, ip := "10.0.0.9" } sampleCluster_fair (by decide)).1⟩

/-- C1: for a subset in which no IP occurs twice and a complete probe batch
(the IPs of the results are a permutation of the keys of the map, so one
result per classified address, in any order), the loop of `checkEndpoints`
receives every result and returns; afterwards the ready pool holds exactly the
records of the subset probed reachable, the not-ready pool exactly those
probed unreachable, and still no IP occurs twice. -/
theorem loop_sorts_by_reachability (ep : EndpointSubset) (rs : List ValidIP)
    (hnd : ep.NoDupIPs) (hbatch : (rs.map ValidIP.ip).Perm (AddrMap.keys (GetAddresses ep))) :
    ∃ st : LoopState,
      resultLoop (GetAddresses ep) (AddrMap.len (GetAddresses ep)) rs
          { eps := ep, changedState := false } = some (st, []) ∧
      (∀ x, x ∈ st.eps.Addresses ↔
        (x ∈ ep.Addresses ∨ x ∈ ep.NotReadyAddresses) ∧
          ({ available := true, ip := x.IP } : ValidIP) ∈ rs) ∧
      (∀ x, x ∈ st.eps.NotReadyAddresses ↔
        (x ∈ ep.Addresses ∨ x ∈ ep.NotReadyAddresses) ∧
          ({ available := false, ip := x.IP } : ValidIP) ∈ rs) ∧
      st.eps.NoDupIPs := by
  have hlen : rs.length = AddrMap.len (GetAddresses ep) := by
    have := hbatch.length_eq
    simpa [AddrMap.len, AddrMap.keys] using this
  have hnd2 : (ep.Addresses.map EndpointAddress.IP ++
      ep.NotReadyAddresses.map EndpointAddress.IP).Nodup := by
    simpa [EndpointSubset.NoDupIPs, EndpointSubset.allIPs] using hnd
  have hdisj : ∀ x ∈ ep.Addresses, x.IP ∉ ep.NotReadyAddresses.map EndpointAddress.IP :=
    fun x hx h => (List.nodup_append.mp hnd2).2.2 (List.mem_map_of_mem _ hx) h
  have hrsnd : (rs.map ValidIP.ip).Nodup := hbatch.nodup_iff.mpr (GetAddresses_nodup_keys ep)
  have hprobed : ∀ x, (x ∈ ep.Addresses ∨ x ∈ ep.NotReadyAddresses) →
      x.IP ∈ rs.map ValidIP.ip := by
    intro x hx
    refine hbatch.symm.subset ((GetAddresses_mem_keys ep x.IP).mpr ?_)
    unfold EndpointSubset.allIPs
    exact List.mem_map_of_mem _ (List.mem_append.mpr hx)
  refine ⟨rs.foldl (processResult (GetAddresses ep)) { eps := ep, changedState := false },
    resultLoop_complete _ _ _ _ hlen, ?_, ?_, ?_⟩
  · intro x
    rw [(loop_invariant ep hdisj rs x).1]
    constructor
    · rintro (⟨hx, hr⟩ | ⟨hx, hr⟩)
      · exact ⟨Or.inl hx, (batch_dichotomy rs x.IP hrsnd (hprobed x (Or.inl hx))).mpr hr⟩
      · exact ⟨Or.inr hx, hr⟩
    · rintro ⟨hx | hx, hr⟩
      · exact Or.inl ⟨hx, (batch_dichotomy rs x.IP hrsnd (hprobed x (Or.inl hx))).mp hr⟩
      · exact Or.inr ⟨hx, hr⟩
  · intro x
    rw [(loop_invariant ep hdisj rs x).2]
    constructor
    · rintro (⟨hx, hr⟩ | ⟨hx, hr⟩)
      · refine ⟨Or.inr hx, ?_⟩
        by_contra hc
        exact hr ((batch_dichotomy rs x.IP hrsnd (hprobed x (Or.inr hx))).mpr hc)
      · exact ⟨Or.inl hx, hr⟩
    · rintro ⟨hx | hx, hr⟩
      · exact Or.inr ⟨hx, hr⟩
      · exact Or.inl ⟨hx, fun ht =>
          (batch_dichotomy rs x.IP hrsnd (hprobed x (Or.inr hx))).mp ht hr⟩
  · exact ((foldl_processResult_perm (GetAddresses ep) rs
      { eps := ep, changedState := false }).map EndpointAddress.IP).nodup_iff.mpr hnd

/-- C1, at the pool `ready = [10.0.0.1, 10.0.0.2]`, `not-ready = []` with
`.1` probed unreachable and `.2` probed reachable: the loop returns with
`ready = [10.0.0.2]` and `not-ready = [10.0.0.1]`. -/
theorem loop_sorts_by_reachability_witness :
    (resultLoop
      (GetAddresses
        { Addresses := [⟨"10.0.0.1", "a", none⟩, ⟨"10.0.0.2", "b", none⟩],
          NotReadyAddresses := [], Ports := [80] })
      (AddrMap.len (GetAddresses
        { Addresses := [⟨"10.0.0.1", "a", none⟩, ⟨"10.0.0.2", "b", none⟩],
          NotReadyAddresses := [], Ports := [80] }))
      [{ available := true, ip := "10.0.0.2" }, { available := false, ip := "10.0.0.1" }]
      { eps := { Addresses := [⟨"10.0.0.1", "a", none⟩, ⟨"10.0.0.2", "b", none⟩],
                 NotReadyAddresses := [], Ports := [80] },
        changedState := false } =
      some ({ eps := { Addresses := [⟨"10.0.0.2", "b", none⟩],
                       NotReadyAddresses := [⟨"10.0.0.1", "a", none⟩], Ports := [80] },
              changedState := true }, [])) ∧
    ∃ st : LoopState,
      resultLoop
        (GetAddresses
          { Addresses := [⟨"10.0.0.1", "a", none⟩, ⟨"10.0.0.2", "b", none⟩],
            NotReadyAddresses := [], Ports := [80] })
        (AddrMap.len (GetAddresses
          { Addresses := [⟨"10.0.0.1", "a", none⟩, ⟨"10.0.0.2", "b", none⟩],
            NotReadyAddresses := [], Ports := [80] }))
        [{ available := true, ip := "10.0.0.2" }, { available := false, ip := "10.0.0.1" }]
        { eps := { Addresses := [⟨"10.0.0.1", "a", none⟩, ⟨"10.0.0.2", "b", none⟩],
                   NotReadyAddresses := [], Ports := [80] },
          changedState := false } = some (st, []) ∧
      st.eps.NoDupIPs := by
  refine ⟨by decide, ?_⟩
  obtain ⟨st, h1, _, _, h4⟩ := loop_sorts_by_reachability
    { Addresses := [⟨"10.0.0.1", "a", none⟩, ⟨"10.0.0.2", "b", none⟩],
      NotReadyAddresses := [], Ports := [80] }
    [{ available := true, ip := "10.0.0.2" }, { available := false, ip := "10.0.0.1" }]
    (by decide) (by decide)
  exact ⟨st, h1, h4⟩

/-! ## The claims about the cycle -/

/-- C3: in a cycle whose fetch returned a resource with one subset and whose
scheduler delivers every probe result once, the batch is complete, the loop
returns, and the cycle body calls `Update` exactly when some result of the
batch disagrees with the classification; when none does, `changedState` stays
`false`, the subset is unchanged and no `Update` is made. -/
theorem update_iff_disagreement (c : Cluster) (w : World) (ep : Endpoints) (s : EndpointSubset)
    (hfair : c.Fair) (hget : c.getResp w.gets = Except.ok ep) (hsub : ep.Subsets = [s]) :
    ((probeBatch c w.rounds s).map ValidIP.ip).Perm (AddrMap.keys (GetAddresses s)) ∧
    ∃ st : LoopState,
      resultLoop (GetAddresses s) (AddrMap.len (GetAddresses s)) (probeBatch c w.rounds s)
          { eps := s, changedState := false } = some (st, []) ∧
      (st.changedState = true ↔
        ∃ r ∈ probeBatch c w.rounds s, disagrees (GetAddresses s) r = true) ∧
      ((∃ p, Event.update p ∈ (cycleBody c w).2.log.drop w.log.length) ↔
        ∃ r ∈ probeBatch c w.rounds s, disagrees (GetAddresses s) r = true) ∧
      ((∃ r ∈ probeBatch c w.rounds s, disagrees (GetAddresses s) r = true) →
        cycleBody c w =
          (Res.ret (c.updateResp w.updates (payload ep st [])),
            { gets := w.gets + 1, rounds := w.rounds + 1, updates := w.updates + 1,
              log := w.log ++ [Event.get] ++ (AddrMap.keys (GetAddresses s)).map Event.probe ++
                [Event.update (payload ep st [])] })) ∧
      ((¬ ∃ r ∈ probeBatch c w.rounds s, disagrees (GetAddresses s) r = true) →
        st = { eps := s, changedState := false } ∧
        cycleBody c w =
          (Res.ret none,
            { gets := w.gets + 1, rounds := w.rounds + 1, updates := w.updates,
              log := w.log ++ [Event.get] ++
                (AddrMap.keys (GetAddresses s)).map Event.probe })) := by
  have hchg := foldl_processResult_changed (GetAddresses s) (probeBatch c w.rounds s)
    { eps := s, changedState := false }
  have hany := any_disagrees_iff (GetAddresses s) (probeBatch c w.rounds s)
  have hbody := cycleBody_of_single c w ep s hget hsub
  rw [probeAndCommit_of_fair c hfair] at hbody
  simp only at hbody
  have hiff : ((probeBatch c w.rounds s).foldl (processResult (GetAddresses s))
      { eps := s, changedState := false }).changedState = true ↔
      ∃ r ∈ probeBatch c w.rounds s, disagrees (GetAddresses s) r = true := by
    rw [hchg, Bool.false_or]
    exact hany
  have hyes : (∃ r ∈ probeBatch c w.rounds s, disagrees (GetAddresses s) r = true) →
      cycleBody c w =
        (Res.ret (c.updateResp w.updates (payload ep
          ((probeBatch c w.rounds s).foldl (processResult (GetAddresses s))
            { eps := s, changedState := false }) [])),
          { gets := w.gets + 1, rounds := w.rounds + 1, updates := w.updates + 1,
            log := w.log ++ [Event.get] ++ (AddrMap.keys (GetAddresses s)).map Event.probe ++
              [Event.update (payload ep
                ((probeBatch c w.rounds s).foldl (processResult (GetAddresses s))
                  { eps := s, changedState := false }) [])] }) := by
    intro h
    rw [hbody, if_pos (hiff.mpr h)]
  have hno : (¬ ∃ r ∈ probeBatch c w.rounds s, disagrees (GetAddresses s) r = true) →
      cycleBody c w =
        (Res.ret none,
          { gets := w.gets + 1, rounds := w.rounds + 1, updates := w.updates,
            log := w.log ++ [Event.get] ++
              (AddrMap.keys (GetAddresses s)).map Event.probe }) := by
    intro h
    rw [hbody, if_neg (fun hc => h (hiff.mp hc))]
  refine ⟨probeBatch_perm c hfair w.rounds s,
    (probeBatch c w.rounds s).foldl (processResult (GetAddresses s))
      { eps := s, changedState := false },
    resultLoop_complete _ _ _ _ (probeBatch_length c hfair w.rounds s), hiff, ?_, hyes, ?_⟩
  · by_cases h : ∃ r ∈ probeBatch c w.rounds s, disagrees (GetAddresses s) r = true
    · rw [hyes h]
      simp only [List.append_assoc, List.drop_left]
      exact iff_of_true ⟨payload ep
        ((probeBatch c w.rounds s).foldl (processResult (GetAddresses s))
          { eps := s, changedState := false }) [], by simp⟩ h
    · rw [hno h]
      simp only [List.append_assoc, List.drop_left]
      refine iff_of_false ?_ h
      rintro ⟨p, hp⟩
      simp at hp
  · intro h
    refine ⟨foldl_processResult_of_agree _ _ _ ?_, hno h⟩
    intro r hr
    by_contra hc
    exact h ⟨r, hr, by simpa using hc⟩

/-- C3, at the sample cluster: in the first cycle the probe of `10.0.0.1`
disagrees with its classification, and the cycle body makes the `Update`
call. -/
theorem update_iff_disagreement_witness :
    ∃ p, Event.update p ∈ (cycleBody sampleCluster World.init).2.log.drop World.init.log.length := by
  obtain ⟨_, st, _, _, h, _⟩ := update_iff_disagreement sampleCluster World.init sampleFirst
    { Addresses := [⟨"10.0.0.1", "a", none⟩], NotReadyAddresses := [], Ports := [80] }
    sampleCluster_fair rfl rfl
  exact h.mpr ⟨{ available := false, ip := "10.0.0.1" }, by decide, by decide⟩

/-- C8: the cycle gets past lines 123-124, to the probing step, exactly when
the `Get` succeeds and returns one subset.  When the `Get` fails or returns
more than one subset `getEndpoints` panics, and when it returns no subset the
access `ep.Subsets[0]` panics; the panic ends the iteration of
`checkEndpoints`, and the only effect of the cycle is the `Get`: no probe
round and no `Update`.  With one subset a probe is launched for every key of
the map. -/
theorem probing_iff_single_subset (c : Cluster) (w : World) :
    ((∃ v, (fetchSubset c w).1 = Res.ret v) ↔
      ∃ ep, c.getResp w.gets = Except.ok ep ∧ ep.Subsets.length = 1) ∧
    (∀ err, c.getResp w.gets = Except.error err →
      getEndpoints c w = (Res.panicked err.Error,
        { gets := w.gets + 1, rounds := w.rounds, updates := w.updates,
          log := w.log ++ [Event.get] }) ∧
      cycleBody c w = (Res.panicked err.Error,
        { gets := w.gets + 1, rounds := w.rounds, updates := w.updates,
          log := w.log ++ [Event.get] }) ∧
      checkEndpoints.iteration c w = (Res.panicked err.Error,
        { gets := w.gets + 1, rounds := w.rounds, updates := w.updates,
          log := w.log ++ [Event.get] })) ∧
    (∀ ep, c.getResp w.gets = Except.ok ep → 1 < ep.Subsets.length →
      getEndpoints c w = (Res.panicked "Error: more than one endpoint subset",
        { gets := w.gets + 1, rounds := w.rounds, updates := w.updates,
          log := w.log ++ [Event.get] }) ∧
      cycleBody c w = (Res.panicked "Error: more than one endpoint subset",
        { gets := w.gets + 1, rounds := w.rounds, updates := w.updates,
          log := w.log ++ [Event.get] }) ∧
      checkEndpoints.iteration c w = (Res.panicked "Error: more than one endpoint subset",
        { gets := w.gets + 1, rounds := w.rounds, updates := w.updates,
          log := w.log ++ [Event.get] })) ∧
    (∀ ep, c.getResp w.gets = Except.ok ep → ep.Subsets = [] →
      getEndpoints c w = (Res.ret ep,
        { gets := w.gets + 1, rounds := w.rounds, updates := w.updates,
          log := w.log ++ [Event.get] }) ∧
      cycleBody c w = (Res.panicked "runtime error: index out of range",
        { gets := w.gets + 1, rounds := w.rounds, updates := w.updates,
          log := w.log ++ [Event.get] }) ∧
      checkEndpoints.iteration c w = (Res.panicked "runtime error: index out of range",
        { gets := w.gets + 1, rounds := w.rounds, updates := w.updates,
          log := w.log ++ [Event.get] })) ∧
    (∀ ep s, c.getResp w.gets = Except.ok ep → ep.Subsets = [s] →
      (cycleBody c w).2.rounds = w.rounds + 1 ∧
      ∀ ip ∈ AddrMap.keys (GetAddresses s), Event.probe ip ∈ (cycleBody c w).2.log) := by
  refine ⟨?_, ?_, ?_, ?_, ?_⟩
  · constructor
    · rintro ⟨v, hv⟩
      cases hg : c.getResp w.gets with
      | error err => simp [fetchSubset, getEndpoints, hg] at hv
      | ok ep =>
        refine ⟨ep, rfl, ?_⟩
        by_cases hlen : 1 < ep.Subsets.length
        · simp [fetchSubset, getEndpoints, hg, hlen] at hv
        · cases hs : ep.Subsets with
          | nil => simp [fetchSubset, getEndpoints, hg, hs] at hv
          | cons a t =>
            rw [hs] at hlen
            simp only [List.length_cons] at hlen ⊢
            omega
    · rintro ⟨ep, hg, hlen⟩
      obtain ⟨a, ha⟩ := List.length_eq_one.mp hlen
      exact ⟨(ep, a, []), by rw [fetchSubset_of_single c w ep a hg ha]⟩
  · intro err hg
    have h1 : cycleBody c w = (Res.panicked err.Error,
        { gets := w.gets + 1, rounds := w.rounds, updates := w.updates,
          log := w.log ++ [Event.get] }) := by
      simp [cycleBody, fetchSubset, getEndpoints, hg]
    exact ⟨by simp [getEndpoints, hg], h1, iteration_of_panicked c w _ _ h1⟩
  · intro ep hg hlen
    have h1 : cycleBody c w = (Res.panicked "Error: more than one endpoint subset",
        { gets := w.gets + 1, rounds := w.rounds, updates := w.updates,
          log := w.log ++ [Event.get] }) := by
      simp [cycleBody, fetchSubset, getEndpoints, hg, hlen]
    exact ⟨by simp [getEndpoints, hg, hlen], h1, iteration_of_panicked c w _ _ h1⟩
  · intro ep hg hs
    have h1 : cycleBody c w = (Res.panicked "runtime error: index out of range",
        { gets := w.gets + 1, rounds := w.rounds, updates := w.updates,
          log := w.log ++ [Event.get] }) := by
      simp [cycleBody, fetchSubset, getEndpoints, hg, hs]
    exact ⟨by simp [getEndpoints, hg, hs], h1, iteration_of_panicked c w _ _ h1⟩
  · intro ep s hg hs
    rw [cycleBody_of_single c w ep s hg hs]
    exact probeAndCommit_rounds c ep s [] _

/-- C8, at a cluster whose `Get` fails: the iteration panics with the message
of the error after the `Get` alone. -/
theorem probing_iff_single_subset_witness :
    checkEndpoints.iteration brokenCluster World.init =
      (Res.panicked "forbidden", { gets := 1, rounds := 0, updates := 0, log := [Event.get] }) :=
  ((probing_iff_single_subset brokenCluster World.init).2.1
    (GoError.status false "forbidden") rfl).2.2

/-! ## The claims about the retry -/

/-- C4: the failing input.  A function that fails at its first call with the
non-conflict error `wait.ErrWaitTimeout` makes `RetryOnConflict` return `nil`
after that one call, where the claim requires the error of the attempt to be
returned unchanged, as is done for another non-conflict error through the
same `default` branch: lines 252-254 take the error for the sign that the
attempts ran out and put `lastConflictErr`, still `nil`, in its place. -/
theorem retry_swallows_timeout_error :
    IsConflict GoError.ErrWaitTimeout = false ∧
    timeoutFn 0 = (Res.ret (some GoError.ErrWaitTimeout), 1) ∧
    RetryOnConflict DefaultRetry timeoutFn 0 = (Res.ret none, 1) ∧
    RetryOnConflict DefaultRetry forbiddenFn 0 =
      (Res.ret (some (GoError.status false "forbidden")), 1) := by
  refine ⟨rfl, rfl, ?_, ?_⟩
  · rw [RetryOnConflict_of_EB timeoutFn 0 1 (some GoError.ErrWaitTimeout) none
      (EB_step_err timeoutFn 4 0 1 none GoError.ErrWaitTimeout rfl rfl)]
    rfl
  · rw [RetryOnConflict_of_EB forbiddenFn 0 1 (some (GoError.status false "forbidden")) none
      (EB_step_err forbiddenFn 4 0 1 none (GoError.status false "forbidden") rfl rfl)]
    rfl

/-- The contract of `RetryOnConflict` away from the sentinel: with
`DefaultRetry` (5 steps) it calls `fn` at most 5 times (the counter added by
`counting` ends at most at 5) and stops at the first attempt that does not
return a conflict, after exactly that many calls: it returns `nil` if that
attempt returned `nil`, and the error of that attempt if it is neither a
conflict nor `wait.ErrWaitTimeout`; after 5 conflicts it returns the last
conflict error, and the iteration of `checkEndpoints` panics with its
message. -/
theorem retry_contract {σ : Type} (fn : σ → Res (Option GoError) × σ) (s : σ) :
    (RetryOnConflict DefaultRetry (counting fn) (s, 0)).2.2 ≤ 5 ∧
    (∀ k < 5, (∀ j < k, attemptConflict fn s j) → attemptResult fn s k = Res.ret none →
      RetryOnConflict DefaultRetry (counting fn) (s, 0) =
        (Res.ret none, (attemptState fn s (k + 1), k + 1))) ∧
    (∀ k < 5, (∀ j < k, attemptConflict fn s j) → ∀ e,
      attemptResult fn s k = Res.ret (some e) → IsConflict e = false →
      e ≠ GoError.ErrWaitTimeout →
      RetryOnConflict DefaultRetry (counting fn) (s, 0) =
        (Res.ret (some e), (attemptState fn s (k + 1), k + 1))) ∧
    ((∀ j < 5, attemptConflict fn s j) → ∀ e, attemptResult fn s 4 = Res.ret (some e) →
      RetryOnConflict DefaultRetry (counting fn) (s, 0) =
        (Res.ret (some e), (attemptState fn s 5, 5))) ∧
    (∀ (c : Cluster) (w : World), (∀ j < 5, attemptConflict (cycleBody c) w j) →
      ∀ e, attemptResult (cycleBody c) w 4 = Res.ret (some e) →
      checkEndpoints.iteration c w = (Res.panicked e.Error, attemptState (cycleBody c) w 5)) := by
  have hrun : ∀ k < 5, (∀ j < k, attemptConflict fn s j) →
      ∃ last' : Option GoError,
        ExponentialBackoff (RetryOnConflict.condition (counting fn)) 5 ((s, 0), none) =
          ExponentialBackoff (RetryOnConflict.condition (counting fn)) (4 - k + 1)
            ((attemptState fn s k, k), last') ∧
        (k = 0 → last' = none) ∧
        (∀ e, 0 < k → attemptResult fn s (k - 1) = Res.ret (some e) → last' = some e) := by
    intro k hk hconf
    obtain ⟨last', h1, h2, h3⟩ := EB_conflicts (counting fn) (s, 0) k
      (fun j hj => attemptConflict_counting fn s 0 j (hconf j hj)) (4 - k + 1) none
    have e5 : 4 - k + 1 + k = 5 := by omega
    rw [e5, (attempt_counting fn s 0 k).1, Nat.zero_add] at h1
    refine ⟨last', h1, h2, fun e hpos he => h3 e hpos ?_⟩
    rw [(attempt_counting fn s 0 (k - 1)).2]
    exact he
  have hstep : ∀ k, counting fn (attemptState fn s k, k) =
      (attemptResult fn s k, (attemptState fn s (k + 1), k + 1)) := fun k => rfl
  refine ⟨?_, ?_, ?_, ?_, ?_⟩
  · rw [RetryOnConflict_state, DefaultRetry_steps]
    have := EB_count_le fn 5 s 0 none
    omega
  · intro k hk hconf hres
    obtain ⟨last', h1, _, _⟩ := hrun k hk hconf
    have hfn := hstep k
    rw [hres] at hfn
    rw [EB_step_nil (counting fn) (4 - k) _ _ last' hfn] at h1
    rw [RetryOnConflict_of_EB (counting fn) _ _ _ _ h1]
    simp
  · intro k hk hconf e hres hnc hne
    obtain ⟨last', h1, _, _⟩ := hrun k hk hconf
    have hfn := hstep k
    rw [hres] at hfn
    rw [EB_step_err (counting fn) (4 - k) _ _ last' e hfn hnc] at h1
    rw [RetryOnConflict_of_EB (counting fn) _ _ _ _ h1]
    simp [hne]
  · intro hconf e hres
    obtain ⟨last', h1, _, h3⟩ := EB_conflicts (counting fn) (s, 0) 5
      (fun j hj => attemptConflict_counting fn s 0 j (hconf j hj)) 0 none
    have hl : last' = some e := by
      apply h3 e (by decide)
      rw [(attempt_counting fn s 0 (5 - 1)).2]
      exact hres
    rw [(attempt_counting fn s 0 5).1] at h1
    have h0 : ExponentialBackoff (RetryOnConflict.condition (counting fn)) 0
        ((attemptState fn s 5, 0 + 5), last') =
        (Res.ret (some GoError.ErrWaitTimeout), ((attemptState fn s 5, 0 + 5), last')) := rfl
    rw [h0] at h1
    rw [RetryOnConflict_of_EB (counting fn) _ _ _ _ h1, if_pos rfl, hl]
  · intro c w hconf e hres
    obtain ⟨last', h1, _, h3⟩ := EB_conflicts (cycleBody c) w 5 hconf 0 none
    have hl : last' = some e := h3 e (by decide) hres
    have h0 : ExponentialBackoff (RetryOnConflict.condition (cycleBody c)) 0
        (attemptState (cycleBody c) w 5, last') =
        (Res.ret (some GoError.ErrWaitTimeout), (attemptState (cycleBody c) w 5, last')) := rfl
    rw [h0] at h1
    unfold checkEndpoints.iteration
    rw [RetryOnConflict_of_EB (cycleBody c) _ _ _ _ h1, if_pos rfl, hl]

/-- At a function that returns a conflict once and then `nil`,
`RetryOnConflict` returns `nil` after exactly two calls. -/
theorem retry_contract_witness :
    RetryOnConflict DefaultRetry (counting conflictOnceFn) (0, 0) = (Res.ret none, (2, 2)) :=
  (retry_contract conflictOnceFn 0).2.1 1 (by decide)
    (fun j hj => by
      have hj0 : j = 0 := by omega
      subst hj0
      exact ⟨GoError.status true "conflict", rfl, rfl⟩)
    rfl

/-- C9, refuted as stated: in the sample cluster the first `Update` is refused
with a conflict and the second succeeds; between the two attempts the resource
has changed.  The iteration does not abort, but it makes two `Get` calls and
two probing rounds, and the resource written by the second `Update` is
computed from the second snapshot: it differs from the mutation computed from
the snapshot fetched first, which was the payload of the first `Update`. -/
theorem retry_refetches_and_reprobes :
    (cycleBody sampleCluster World.init).1 = Res.ret (some (GoError.status true "conflict")) ∧
    checkEndpoints.iteration sampleCluster World.init =
      (Res.ret (),
        { gets := 2, rounds := 2, updates := 2,
          log :=
            [Event.get, Event.probe "10.0.0.1",
             Event.update
               { Name := "svc", ResourceVersion := "1",
                 Subsets := [{ Addresses := [],
                               NotReadyAddresses := [⟨"10.0.0.1", "a", none⟩],
                               Ports := [80] }] },
             Event.get, Event.probe "10.0.0.1", Event.probe "10.0.0.2",
             Event.update
               { Name := "svc", ResourceVersion := "2",
                 Subsets := [{ Addresses := [⟨"10.0.0.2", "b", none⟩],
                               NotReadyAddresses := [⟨"10.0.0.1", "a", none⟩],
                               Ports := [80] }] }] }) ∧
    ({ Name := "svc", ResourceVersion := "2",
       Subsets := [{ Addresses := [⟨"10.0.0.2", "b", none⟩],
                     NotReadyAddresses := [⟨"10.0.0.1", "a", none⟩],
                     Ports := [80] }] } : Endpoints) ≠
      payload sampleFirst
        ((probeBatch sampleCluster 0
            { Addresses := [⟨"10.0.0.1", "a", none⟩], NotReadyAddresses := [],
              Ports := [80] }).foldl
          (processResult (GetAddresses
            { Addresses := [⟨"10.0.0.1", "a", none⟩], NotReadyAddresses := [], Ports := [80] }))
          { eps := { Addresses := [⟨"10.0.0.1", "a", none⟩], NotReadyAddresses := [],
                     Ports := [80] },
            changedState := false }) [] := by
  refine ⟨by decide, by decide, by decide⟩

/-- C9, amended: when the first attempt of a cycle ends in an `Update` that is
refused with a conflict and the second attempt ends in an `Update` that
succeeds, the retry runs the whole cycle body again: a second `Get`, a second
probing round, and an `Update` whose payload is the mutation computed from the
snapshot fetched by the second attempt with the results of the second round;
`RetryOnConflict` returns `nil` after two attempts and the iteration of
`checkEndpoints` does not panic. -/
theorem retry_reruns_cycle (c : Cluster) (w : World) (ep0 ep1 : Endpoints)
    (s0 s1 : EndpointSubset) (e : GoError) (hfair : c.Fair)
    (hget0 : c.getResp w.gets = Except.ok ep0) (hsub0 : ep0.Subsets = [s0])
    (hdis0 : ∃ r ∈ probeBatch c w.rounds s0, disagrees (GetAddresses s0) r = true)
    (hupd0 : c.updateResp w.updates (payload ep0
      ((probeBatch c w.rounds s0).foldl (processResult (GetAddresses s0))
        { eps := s0, changedState := false }) []) = some e)
    (hconf : IsConflict e = true)
    (hget1 : c.getResp (w.gets + 1) = Except.ok ep1) (hsub1 : ep1.Subsets = [s1])
    (hdis1 : ∃ r ∈ probeBatch c (w.rounds + 1) s1, disagrees (GetAddresses s1) r = true)
    (hupd1 : c.updateResp (w.updates + 1) (payload ep1
      ((probeBatch c (w.rounds + 1) s1).foldl (processResult (GetAddresses s1))
        { eps := s1, changedState := false }) []) = none) :
    resultLoop (GetAddresses s1) (AddrMap.len (GetAddresses s1)) (probeBatch c (w.rounds + 1) s1)
        { eps := s1, changedState := false } =
      some ((probeBatch c (w.rounds + 1) s1).foldl (processResult (GetAddresses s1))
        { eps := s1, changedState := false }, []) ∧
    RetryOnConflict DefaultRetry (cycleBody c) w =
      (Res.ret none,
        { gets := w.gets + 2, rounds := w.rounds + 2, updates := w.updates + 2,
          log := w.log ++ [Event.get] ++ (AddrMap.keys (GetAddresses s0)).map Event.probe ++
            [Event.update (payload ep0
              ((probeBatch c w.rounds s0).foldl (processResult (GetAddresses s0))
                { eps := s0, changedState := false }) [])] ++
            [Event.get] ++ (AddrMap.keys (GetAddresses s1)).map Event.probe ++
            [Event.update (payload ep1
              ((probeBatch c (w.rounds + 1) s1).foldl (processResult (GetAddresses s1))
                { eps := s1, changedState := false }) [])] }) ∧
    (checkEndpoints.iteration c w).1 = Res.ret () := by
  have h0 := cycleBody_of_disagreement c w ep0 s0 hfair hget0 hsub0 hdis0
  rw [hupd0] at h0
  have h1 := cycleBody_of_disagreement c
    { gets := w.gets + 1, rounds := w.rounds + 1, updates := w.updates + 1,
      log := w.log ++ [Event.get] ++ (AddrMap.keys (GetAddresses s0)).map Event.probe ++
        [Event.update (payload ep0
          ((probeBatch c w.rounds s0).foldl (processResult (GetAddresses s0))
            { eps := s0, changedState := false }) [])] }
    ep1 s1 hfair hget1 hsub1 hdis1
  simp only at h1
  rw [hupd1] at h1
  have hEB := EB_step_conflict (cycleBody c) 4 w _ none e h0 hconf
  rw [EB_step_nil (cycleBody c) 3 _ _ (some e) h1] at hEB
  have hR := RetryOnConflict_of_EB (cycleBody c) w _ none (some e) hEB
  rw [if_neg (by simp)] at hR
  refine ⟨resultLoop_complete _ _ _ _ (probeBatch_length c hfair (w.rounds + 1) s1), hR, ?_⟩
  unfold checkEndpoints.iteration
  rw [hR]

/-- C9, amended, at the sample cluster: the iteration that meets a conflict on
its first `Update` returns without a panic. -/
theorem retry_reruns_cycle_witness :
    (checkEndpoints.iteration sampleCluster World.init).1 = Res.ret () :=
  (retry_reruns_cycle sampleCluster World.init sampleFirst sampleSecond
    { Addresses := [⟨"10.0.0.1", "a", none⟩], NotReadyAddresses := [], Ports := [80] }
    { Addresses := [⟨"10.0.0.1", "a", none⟩, ⟨"10.0.0.2", "b", none⟩],
      NotReadyAddresses := [], Ports := [80] }
    (GoError.status true "conflict") sampleCluster_fair rfl rfl
    ⟨{ available := false, ip := "10.0.0.1" }, by decide, by decide⟩
    rfl rfl rfl rfl
    ⟨{ available := false, ip := "10.0.0.1" }, by decide, by decide⟩
    rfl).2.2

end ProbeEP
